import Mathlib

/-!
# Verification of the mcp-trace monitor/proxy core

A shallow embedding, in Lean 4, of the parts of the `mcp-trace` repository
that the specification's claims are about:

* the monitor's state core (`mcp-monitor/src/app.rs`): the `App` structure,
  `handle_event`, tab switching, filtering and search;
* the proxy's buffered IPC client (`mcp-proxy/src/buffered_ipc_client.rs`):
  `send` and the reconnect flush of the overflow buffer;
* the monitor's per-connection reader (`mcp-monitor/src/lib.rs`,
  `run_ipc_server`): the wire-message → app-event conversion;
* the IPC wire format (`mcp-common/src/ipc.rs`, `messages.rs`, `types.rs`):
  line-framed compact JSON envelopes, modelling `serde_json`'s serializer
  and deserializer on the documents this system produces.

Machine integers (`usize`, `u64`, `u32`, `u16`) are modelled as `Nat`;
the only arithmetic the embedded code performs on them is addition,
comparison and saturating subtraction, so no wrap-around modelling is
needed (`Nat` subtraction is exactly Rust's `saturating_sub`).
-/

set_option maxRecDepth 20000

/-! ## Identifiers and timestamps (`mcp-common/src/types.rs`) -/

/-- Model of `uuid::Uuid`: a 128-bit value.  Equality is by bit value. -/
structure Uuid where
  val : Nat
deriving DecidableEq

/-- `pub struct ProxyId(pub Uuid)` — newtype over a UUID. -/
structure ProxyId where
  uuid : Uuid
deriving DecidableEq

/-- Model of `chrono::DateTime<Utc>`: a civil UTC instant with nanosecond
resolution (the finest resolution chrono carries).  The wire format is
RFC3339, rendered from these components. -/
structure Timestamp where
  year : Nat
  month : Nat
  day : Nat
  hour : Nat
  minute : Nat
  second : Nat
  nanos : Nat
deriving DecidableEq

/-- Model of `std::time::Duration` as serialized by serde: `{secs, nanos}`. -/
structure Duration where
  secs : Nat
  nanos : Nat
deriving DecidableEq

/-- `enum LogLevel` from `types.rs`. -/
inductive LogLevel
  | Debug
  | Info
  | Warning
  | Error
  | Request
  | Response
deriving DecidableEq

/-- The textual rendering `format!("{:?}", level)` used by the search
matcher (derived `Debug` prints the variant name). -/
def levelDebugText : LogLevel → String
  | .Debug => "Debug"
  | .Info => "Info"
  | .Warning => "Warning"
  | .Error => "Error"
  | .Request => "Request"
  | .Response => "Response"

/-! ## JSON values

Model of `serde_json::Value` restricted to integer numerals: every number
this system serializes (`u64`/`u32` counters, duration fields) is a
non-negative integer, and user metadata is quantified over integer-numbered
JSON documents. -/

inductive Json
  | null
  | bool (b : Bool)
  | num (n : Int)
  | str (s : List Char)
  | arr (elems : List Json)
  | obj (members : List (List Char × Json))

mutual

/-- Boolean equality on JSON values. -/
def Json.beq : Json → Json → Bool
  | .null, .null => true
  | .bool a, .bool b => a == b
  | .num a, .num b => a == b
  | .str a, .str b => a == b
  | .arr a, .arr b => Json.beqList a b
  | .obj a, .obj b => Json.beqMembers a b
  | _, _ => false

def Json.beqList : List Json → List Json → Bool
  | [], [] => true
  | a :: as, b :: bs => Json.beq a b && Json.beqList as bs
  | _, _ => false

def Json.beqMembers : List (List Char × Json) → List (List Char × Json) → Bool
  | [], [] => true
  | (k, v) :: as, (k', v') :: bs => k == k' && Json.beq v v' && Json.beqMembers as bs
  | _, _ => false

end

mutual

def Json.beq_refl : ∀ a : Json, Json.beq a a = true
  | .null => rfl
  | .bool b => by simp [Json.beq]
  | .num n => by simp [Json.beq]
  | .str s => by simp [Json.beq]
  | .arr xs => by simp [Json.beq]; exact Json.beqList_refl xs
  | .obj ms => by simp [Json.beq]; exact Json.beqMembers_refl ms

def Json.beqList_refl : ∀ xs : List Json, Json.beqList xs xs = true
  | [] => rfl
  | x :: xs => by
      simp [Json.beqList]
      exact ⟨Json.beq_refl x, Json.beqList_refl xs⟩

def Json.beqMembers_refl : ∀ ms : List (List Char × Json), Json.beqMembers ms ms = true
  | [] => rfl
  | (k, v) :: ms => by
      simp [Json.beqMembers]
      exact ⟨Json.beq_refl v, Json.beqMembers_refl ms⟩

end

mutual

def Json.eq_of_beq : ∀ {a b : Json}, Json.beq a b = true → a = b
  | .null, .null, _ => rfl
  | .bool a, .bool b, h => by simp [Json.beq] at h; simp [h]
  | .num a, .num b, h => by simp [Json.beq] at h; simp [h]
  | .str a, .str b, h => by simp [Json.beq] at h; simp [h]
  | .arr a, .arr b, h => by
      simp [Json.beq] at h
      exact congrArg Json.arr (Json.eqList_of_beq h)
  | .obj a, .obj b, h => by
      simp [Json.beq] at h
      exact congrArg Json.obj (Json.eqMembers_of_beq h)
  | .null, .bool _, h => by simp [Json.beq] at h
  | .null, .num _, h => by simp [Json.beq] at h
  | .null, .str _, h => by simp [Json.beq] at h
  | .null, .arr _, h => by simp [Json.beq] at h
  | .null, .obj _, h => by simp [Json.beq] at h
  | .bool _, .null, h => by simp [Json.beq] at h
  | .bool _, .num _, h => by simp [Json.beq] at h
  | .bool _, .str _, h => by simp [Json.beq] at h
  | .bool _, .arr _, h => by simp [Json.beq] at h
  | .bool _, .obj _, h => by simp [Json.beq] at h
  | .num _, .null, h => by simp [Json.beq] at h
  | .num _, .bool _, h => by simp [Json.beq] at h
  | .num _, .str _, h => by simp [Json.beq] at h
  | .num _, .arr _, h => by simp [Json.beq] at h
  | .num _, .obj _, h => by simp [Json.beq] at h
  | .str _, .null, h => by simp [Json.beq] at h
  | .str _, .bool _, h => by simp [Json.beq] at h
  | .str _, .num _, h => by simp [Json.beq] at h
  | .str _, .arr _, h => by simp [Json.beq] at h
  | .str _, .obj _, h => by simp [Json.beq] at h
  | .arr _, .null, h => by simp [Json.beq] at h
  | .arr _, .bool _, h => by simp [Json.beq] at h
  | .arr _, .num _, h => by simp [Json.beq] at h
  | .arr _, .str _, h => by simp [Json.beq] at h
  | .arr _, .obj _, h => by simp [Json.beq] at h
  | .obj _, .null, h => by simp [Json.beq] at h
  | .obj _, .bool _, h => by simp [Json.beq] at h
  | .obj _, .num _, h => by simp [Json.beq] at h
  | .obj _, .str _, h => by simp [Json.beq] at h
  | .obj _, .arr _, h => by simp [Json.beq] at h

def Json.eqList_of_beq : ∀ {a b : List Json}, Json.beqList a b = true → a = b
  | [], [], _ => rfl
  | x :: xs, y :: ys, h => by
      simp [Json.beqList] at h
      have h1 := Json.eq_of_beq h.1
      have h2 := Json.eqList_of_beq h.2
      simp [h1, h2]
  | [], _ :: _, h => by simp [Json.beqList] at h
  | _ :: _, [], h => by simp [Json.beqList] at h

def Json.eqMembers_of_beq :
    ∀ {a b : List (List Char × Json)}, Json.beqMembers a b = true → a = b
  | [], [], _ => rfl
  | (k, v) :: xs, (k', v') :: ys, h => by
      simp [Json.beqMembers] at h
      have h1 := Json.eq_of_beq h.1.2
      have h2 := Json.eqMembers_of_beq h.2
      simp [h.1.1, h1, h2]
  | [], _ :: _, h => by simp [Json.beqMembers] at h
  | _ :: _, [], h => by simp [Json.beqMembers] at h

end

instance : DecidableEq Json := fun a b =>
  if h : Json.beq a b = true then
    .isTrue (Json.eq_of_beq h)
  else
    .isFalse (fun he => h (he ▸ Json.beq_refl a))

/-! ## Log entries, stats, proxy info (`mcp-common/src/types.rs`) -/

/-- `struct LogEntry` — immutable once emitted. -/
structure LogEntry where
  id : Uuid
  timestamp : Timestamp
  level : LogLevel
  message : String
  proxy_id : ProxyId
  request_id : Option String
  metadata : Option Json
deriving DecidableEq

/-- `struct ProxyStats`. -/
structure ProxyStats where
  proxy_id : ProxyId
  total_requests : Nat
  successful_requests : Nat
  failed_requests : Nat
  active_connections : Nat
  uptime : Duration
  bytes_transferred : Nat
deriving DecidableEq

/-- `enum ProxyStatus`. -/
inductive ProxyStatus
  | Starting
  | Running
  | Stopped
  | Error (msg : String)
deriving DecidableEq

/-- `struct ProxyInfo`. -/
structure ProxyInfo where
  id : ProxyId
  name : String
  listen_address : String
  target_command : List String
  status : ProxyStatus
  stats : ProxyStats
deriving DecidableEq

/-! ## IPC messages and envelopes (`mcp-common/src/messages.rs`) -/

/-- `enum IpcMessage` — the tagged event union carried on the wire. -/
inductive IpcMessage
  | ProxyStarted (info : ProxyInfo)
  | ProxyStopped (id : ProxyId)
  | LogEntry (entry : LogEntry)
  | StatsUpdate (stats : ProxyStats)
  | GetStatus (id : ProxyId)
  | GetLogs (proxy_id : ProxyId) (limit : Option Nat)
  | Shutdown (id : ProxyId)
  | Ping
  | Pong
  | Error (message : String) (proxy_id : Option ProxyId)
deriving DecidableEq

/-- `struct IpcEnvelope` — one envelope per newline-delimited wire record. -/
structure IpcEnvelope where
  message : IpcMessage
  timestamp : Timestamp
  correlation_id : Option Uuid
deriving DecidableEq

/-! ## Monitor state core (`mcp-monitor/src/app.rs`) -/

/-- `enum AppEvent`. -/
inductive AppEvent
  | ProxyConnected (info : ProxyInfo)
  | ProxyDisconnected (id : ProxyId)
  | NewLogEntry (entry : LogEntry)
  | StatsUpdate (stats : ProxyStats)

/-- `enum TabType`. -/
inductive TabType
  | All
  | Messages
  | Errors
  | System
deriving DecidableEq

/-- `enum NavigationMode`. -/
inductive NavigationMode
  | Follow
  | Navigate
  | Search
  | SearchResults
deriving DecidableEq

/-- `enum FocusArea`. -/
inductive FocusArea
  | ProxyList
  | LogView
deriving DecidableEq

/-- `struct ListState` — per-tab saved selection/viewport. -/
structure ListState where
  selected_index : Nat
  viewport_offset : Nat
  navigation_mode : NavigationMode
deriving DecidableEq

/-- Association-list lookup modelling `HashMap::get` on the proxy map. -/
def alLookup (l : List (ProxyId × ProxyInfo)) (k : ProxyId) : Option ProxyInfo :=
  match l with
  | [] => none
  | (k', v) :: t => if k' = k then some v else alLookup t k

/-- Association-list insert-or-replace modelling `HashMap::insert`. -/
def alInsert (l : List (ProxyId × ProxyInfo)) (k : ProxyId) (v : ProxyInfo) :
    List (ProxyId × ProxyInfo) :=
  match l with
  | [] => [(k, v)]
  | (k', v') :: t => if k' = k then (k, v) :: t else (k', v') :: alInsert t k v

/-- Association-list removal modelling `HashMap::remove`. -/
def alRemove (l : List (ProxyId × ProxyInfo)) (k : ProxyId) :
    List (ProxyId × ProxyInfo) :=
  match l with
  | [] => []
  | (k', v') :: t => if k' = k then alRemove t k else (k', v') :: alRemove t k

/-- `struct App` — the monitor's whole mutable state.  The four-entry
`tab_states` hash map (whose key set is fixed at construction and never
changes) is modelled as a total function from `TabType`. -/
structure App where
  proxies : List (ProxyId × ProxyInfo)
  logs : List LogEntry
  selected_index : Nat
  viewport_offset : Nat
  selected_proxy : Option ProxyId
  proxy_selected_index : Nat
  focus_area : FocusArea
  active_tab : TabType
  tab_states : TabType → ListState
  selected_log_index : Option Nat
  show_detail_view : Bool
  detail_word_wrap : Bool
  detail_scroll_offset : Nat
  navigation_mode : NavigationMode
  search_query : String
  search_results : List Nat
  search_cursor : Nat
  show_help_dialog : Bool

/-- `App::new()`. -/
def App.new : App where
  proxies := []
  logs := []
  selected_index := 0
  viewport_offset := 0
  selected_proxy := none
  proxy_selected_index := 0
  focus_area := .LogView
  active_tab := .Messages
  tab_states := fun _ =>
    { selected_index := 0, viewport_offset := 0, navigation_mode := .Follow }
  selected_log_index := none
  show_detail_view := false
  detail_word_wrap := true
  detail_scroll_offset := 0
  navigation_mode := .Follow
  search_query := ""
  search_results := []
  search_cursor := 0
  show_help_dialog := false

/-- The tab filter arm of `get_filtered_logs` / `update_search_results`. -/
def tabMatch (tab : TabType) (level : LogLevel) : Bool :=
  match tab with
  | .All => true
  | .Messages => match level with | .Request | .Response => true | _ => false
  | .Errors => match level with | .Error | .Warning => true | _ => false
  | .System => match level with | .Info | .Debug => true | _ => false

/-- The proxy filter arm: pass unless a proxy is selected and differs. -/
def proxyMatch (selected : Option ProxyId) (pid : ProxyId) : Bool :=
  match selected with
  | some p => pid = p
  | none => true

/-- `App::get_filtered_logs` — proxy filter then tab filter, in order. -/
def App.get_filtered_logs (app : App) : List LogEntry :=
  app.logs.filter fun log =>
    proxyMatch app.selected_proxy log.proxy_id && tabMatch app.active_tab log.level

/-- `App::get_search_filtered_logs` — in Search/SearchResults mode the
`search_results` indices are consulted (regardless of the query), otherwise
the regular filtered view. -/
def App.get_search_filtered_logs (app : App) : List LogEntry :=
  if app.navigation_mode = .Search ∨ app.navigation_mode = .SearchResults then
    app.search_results.filterMap fun i => app.logs[i]?
  else
    app.get_filtered_logs

/-- Rust `str::to_lowercase`, modelled character-wise. -/
def lowerChars (s : List Char) : List Char := s.map Char.toLower

/-- Rust `str::contains(&str)`: substring test at any position. -/
def containsSub (hay need : List Char) : Bool :=
  match hay with
  | [] => need.isEmpty
  | _ :: t => need.isPrefixOf hay || containsSub t need

/-- The per-entry body of the `update_search_results` loop: does `log`
match the lowercased query, against message, owning proxy's name (when
known) and the `Debug` rendering of its level? -/
def searchTextMatch (proxies : List (ProxyId × ProxyInfo)) (queryLower : List Char)
    (log : LogEntry) : Bool :=
  let message_matches := containsSub (lowerChars log.message.data) queryLower
  let proxy_name_matches :=
    match alLookup proxies log.proxy_id with
    | some p => containsSub (lowerChars p.name.data) queryLower
    | none => false
  let level_matches := containsSub (lowerChars (levelDebugText log.level).data) queryLower
  message_matches || proxy_name_matches || level_matches

/-- The index-collecting loop of `App::update_search_results`: walk the
logs with their indices, `continue` on proxy or tab filter failure, push
the index on a text match. -/
def searchScan (app : App) (queryLower : List Char) : Nat → List LogEntry → List Nat
  | _, [] => []
  | i, log :: rest =>
    if ¬ proxyMatch app.selected_proxy log.proxy_id then
      searchScan app queryLower (i + 1) rest
    else if ¬ tabMatch app.active_tab log.level then
      searchScan app queryLower (i + 1) rest
    else if searchTextMatch app.proxies queryLower log then
      i :: searchScan app queryLower (i + 1) rest
    else
      searchScan app queryLower (i + 1) rest

/-- `App::update_search_results`. -/
def App.update_search_results (app : App) : App :=
  if app.search_query = "" then
    { app with search_results := [], selected_index := 0, viewport_offset := 0 }
  else
    let queryLower := lowerChars app.search_query.data
    { app with
      search_results := searchScan app queryLower 0 app.logs
      selected_index := 0
      viewport_offset := 0 }

/-- `MAX_LOGS` from `App::handle_event`. -/
def MAX_LOGS : Nat := 10000

/-- `App::handle_event`.  In the `NewLogEntry` arm, note that the
adjustment of the saved per-tab states subtracts
`self.logs.len() - MAX_LOGS` as evaluated *after* the drain, exactly as
the source does. -/
def App.handle_event (app : App) (event : AppEvent) : App :=
  match event with
  | .ProxyConnected info =>
      { app with proxies := alInsert app.proxies info.id info }
  | .ProxyDisconnected id =>
      let app := { app with proxies := alRemove app.proxies id }
      if app.selected_proxy = some id then
        { app with selected_proxy := none }
      else
        app
  | .NewLogEntry entry =>
      let app := { app with logs := app.logs ++ [entry] }
      let app :=
        if app.logs.length > MAX_LOGS then
          let logs' := app.logs.drop (app.logs.length - MAX_LOGS)
          -- the source computes `self.logs.len() - MAX_LOGS` after the drain
          let sub := logs'.length - MAX_LOGS
          { app with
            logs := logs'
            tab_states := fun t =>
              let st := app.tab_states t
              { st with
                selected_index :=
                  if st.selected_index > 0 then st.selected_index - sub
                  else st.selected_index
                viewport_offset :=
                  if st.viewport_offset > 0 then st.viewport_offset - sub
                  else st.viewport_offset } }
        else
          app
      if app.navigation_mode = NavigationMode.Follow then
        let filtered := app.get_search_filtered_logs
        if filtered.isEmpty then app
        else { app with selected_index := filtered.length - 1 }
      else
        app
  | .StatsUpdate stats =>
      match alLookup app.proxies stats.proxy_id with
      | some proxy =>
          { app with
            proxies := alInsert app.proxies stats.proxy_id { proxy with stats := stats } }
      | none => app

/-- `App::save_tab_state`: store the live selection/viewport/mode under the
active tab (`get_mut` always succeeds: the four keys are fixed). -/
def App.save_tab_state (app : App) : App :=
  { app with
    tab_states := fun t =>
      if t = app.active_tab then
        { selected_index := app.selected_index
          viewport_offset := app.viewport_offset
          navigation_mode := app.navigation_mode }
      else
        app.tab_states t }

/-- `App::switch_tab`: save outgoing state, restore incoming, then clamp
to the incoming tab's filtered length. -/
def App.switch_tab (app : App) (tab : TabType) : App :=
  let app := app.save_tab_state
  let app := { app with active_tab := tab }
  let st := app.tab_states tab
  let app :=
    { app with
      selected_index := st.selected_index
      viewport_offset := st.viewport_offset
      navigation_mode := st.navigation_mode }
  let filtered_count := app.get_filtered_logs.length
  if filtered_count = 0 then
    { app with selected_index := 0, viewport_offset := 0 }
  else if app.selected_index ≥ filtered_count then
    { app with selected_index := filtered_count - 1 }
  else
    app

/-- Process a list of events in order (`handle_event` in a loop). -/
def App.applyEvents (app : App) (events : List AppEvent) : App :=
  events.foldl App.handle_event app

/-! ## The monitor's per-connection reader (`mcp-monitor/src/lib.rs`) -/

/-- The `match envelope.message` in `run_ipc_server`'s reader task: which
wire messages are converted into an `AppEvent` (the `_ => continue` arm
forwards nothing). -/
def eventOfMessage : IpcMessage → Option AppEvent
  | .ProxyStarted info => some (.ProxyConnected info)
  | .ProxyStopped id => some (.ProxyDisconnected id)
  | .LogEntry entry => some (.NewLogEntry entry)
  | .StatsUpdate stats => some (.StatsUpdate stats)
  | _ => none

/-- One reader-loop iteration as observed by the app state: if the
envelope's message converts to an event, the UI task applies it;
otherwise nothing reaches the app. -/
def processEnvelopeMessage (app : App) (m : IpcMessage) : App :=
  match eventOfMessage m with
  | some e => app.handle_event e
  | none => app

/-! ## Buffered IPC client (`mcp-proxy/src/buffered_ipc_client.rs`) -/

/-- `MAX_BUFFER_SIZE` — hard cap of the overflow buffer. -/
def MAX_BUFFER_SIZE : Nat := 10000

/-- Capacity of the in-process `mpsc::channel(1000)` queue. -/
def CHANNEL_CAPACITY : Nat := 1000

/-- What happens to the caller and the message in one call of
`BufferedIpcClient::send`. -/
inductive SendOutcome
  /-- The bounded channel had room: the message was handed to the worker. -/
  | enqueuedToChannel
  /-- The channel was open but full: `mpsc::Sender::send(..).await` parks
  the caller until capacity frees, then enqueues. -/
  | suspendsThenEnqueues
  /-- The channel send returned `Err` (receiver dropped): the message was
  pushed onto the overflow buffer. -/
  | overflowBuffered
  /-- The channel send returned `Err` and the overflow buffer was at its
  cap: the message was dropped (a warning is logged). -/
  | overflowDropped
deriving DecidableEq

/-- Result of one `BufferedIpcClient::send` call: the caller-visible
outcome, the overflow buffer afterwards, and the returned `Result<()>`. -/
structure SendResultModel where
  outcome : SendOutcome
  buffer : List IpcMessage
  result : Except String Unit

/-- `BufferedIpcClient::send`, as a function of the channel's state
(`closed`: the worker/receiver is gone; `queueLen`: messages currently in
the bounded channel) and the overflow buffer.

Per tokio's `mpsc::Sender::send` contract, the awaited send returns
`Err(SendError)` exactly when the channel is closed; when the channel is
open but at capacity it *waits* for room (it never errors on a full open
channel).  The `if let Err(_)` fallback in the source therefore runs only
in the closed case; in the open-and-full case the caller suspends inside
the channel send.  Every control path of the source ends in `Ok(())`. -/
def BufferedIpcClient.send (closed : Bool) (queueLen : Nat)
    (buffer : List IpcMessage) (m : IpcMessage) : SendResultModel :=
  if closed then
    if buffer.length < MAX_BUFFER_SIZE then
      { outcome := .overflowBuffered, buffer := buffer ++ [m], result := .ok () }
    else
      { outcome := .overflowDropped, buffer := buffer, result := .ok () }
  else if CHANNEL_CAPACITY ≤ queueLen then
    { outcome := .suspendsThenEnqueues, buffer := buffer, result := .ok () }
  else
    { outcome := .enqueuedToChannel, buffer := buffer, result := .ok () }

/-- Result of the reconnect flush in `run_client_task`: which events were
delivered over the fresh connection, the overflow buffer afterwards, and
whether the connection survived the flush. -/
structure FlushResult where
  sent : List IpcMessage
  buffer : List IpcMessage
  connected : Bool
deriving DecidableEq

/-- The `for msg in messages_to_send` loop of the reconnect flush.  `ok i`
tells whether the `i`-th `ipc_client.send` of this flush succeeds (success
is a property of the socket, not of the message).  `buf` is the overflow
buffer, already emptied by the wholesale `buf.drain(..)`.  On the first
failure the failing message is pushed onto the buffer (back, bounded), the
connection is reset and the loop breaks — the messages still in
`messages_to_send` are discarded with the vector. -/
def flushLoop (ok : Nat → Bool) : Nat → List IpcMessage → List IpcMessage → FlushResult
  | _, [], buf => { sent := [], buffer := buf, connected := true }
  | i, msg :: rest, buf =>
    if ok i then
      let r := flushLoop ok (i + 1) rest buf
      { r with sent := msg :: r.sent }
    else
      { sent := []
        buffer := if buf.length < MAX_BUFFER_SIZE then buf ++ [msg] else buf
        connected := false }

/-- The whole flush-on-connect step: `buf.drain(..).collect()` empties the
overflow buffer, then the drained messages are sent in order. -/
def flushOnConnect (ok : Nat → Bool) (buffer : List IpcMessage) : FlushResult :=
  flushLoop ok 0 buffer []

/-! ## Spec-side definitions (for the refinement-style claims) -/

/-- The last `n` elements of a list, in order ("the most recent entries"). -/
def takeLast (n : Nat) (l : List α) : List α := l.drop (l.length - n)

/-- Spec-side per-index search predicate over a log list `l`: the entry at
`i` matches the lowercased query text (message, owning proxy name when
known, level text), and passes the proxy and tab filters. -/
def specSearchPred (app : App) (q : List Char) (l : List LogEntry) (i : Nat) : Bool :=
  match l[i]? with
  | none => false
  | some log =>
      searchTextMatch app.proxies q log
      && (proxyMatch app.selected_proxy log.proxy_id
          && tabMatch app.active_tab log.level)

/-- Spec-side description of the search result set: the matching indices
in ascending order. -/
def specSearchResults (app : App) : List Nat :=
  (List.range app.logs.length).filter
    (specSearchPred app (lowerChars app.search_query.data) app.logs)

/-! ## Concrete inputs used by the scenario claims and witnesses -/

/-- A fixed timestamp for concrete log entries. -/
def sampleTimestamp : Timestamp :=
  { year := 2024, month := 1, day := 1, hour := 0, minute := 0, second := 0, nanos := 0 }

/-- A fixed proxy id for concrete log entries. -/
def sampleProxyId : ProxyId := ⟨⟨0⟩⟩

/-- An `Info` log entry with the given message. -/
def mkInfoEntry (msg : String) : LogEntry :=
  { id := ⟨0⟩
    timestamp := sampleTimestamp
    level := .Info
    message := msg
    proxy_id := sampleProxyId
    request_id := none
    metadata := none }

/-- The S3 cap-enforcement entries: "Log 0".."Log 10004". -/
def capEntries : List LogEntry :=
  (List.range 10005).map fun i => mkInfoEntry ("Log " ++ toString i)

/-- The S3 cap-enforcement event feed. -/
def capScenarioEvents : List AppEvent :=
  capEntries.map AppEvent.NewLogEntry

/-- A fresh `App` on the All tab after the S3 feed. -/
def capScenarioApp : App :=
  (App.new.switch_tab .All).applyEvents capScenarioEvents

/-- A monitor state sitting exactly at the log cap whose saved per-tab
states are at selection 7 / viewport 3: the next `NewLogEntry` drains one
entry, so the spec expects the saved indices to drop to 6 / 2. -/
def evictionProbeApp : App :=
  { App.new with
    logs := List.replicate MAX_LOGS (mkInfoEntry "old entry")
    navigation_mode := .Navigate
    tab_states := fun _ =>
      { selected_index := 7, viewport_offset := 3, navigation_mode := .Navigate } }

/-! ## Decimal and hexadecimal digit rendering

Building blocks for the wire format (`serde_json` numerals and escape
sequences, chrono RFC3339 timestamps, `uuid` hyphenated strings). -/

/-- The digit character for a value `< 16`: `0`-`9` then lowercase
`a`-`f` (serde_json's escape table and `uuid`'s encoding are lowercase). -/
def digitChar (n : Nat) : Char :=
  if n < 10 then Char.ofNat (48 + n) else Char.ofNat (87 + n)

/-- Fixed-width base-`b` rendering, most significant digit first. -/
def padDigits (b : Nat) : Nat → Nat → List Char
  | 0, _ => []
  | w + 1, n => digitChar (n / b ^ w) :: padDigits b w (n % b ^ w)

/-- Fixed-width decimal. -/
def padDec (w n : Nat) : List Char := padDigits 10 w n

/-- Fixed-width lowercase hexadecimal. -/
def padHex (w n : Nat) : List Char := padDigits 16 w n

/-- The numeric value of a decimal digit character, if it is one. -/
def decVal (c : Char) : Option Nat :=
  if c.isDigit then some (c.toNat - 48) else none

/-- The numeric value of a lowercase hexadecimal digit character. -/
def hexVal (c : Char) : Option Nat :=
  if c.isDigit then some (c.toNat - 48)
  else if 'a' ≤ c ∧ c ≤ 'f' then some (c.toNat - 87)
  else none

/-- Read exactly `w` digits (by `valOf`) in base `b`, accumulating. -/
def readFixed (valOf : Char → Option Nat) (b : Nat) :
    Nat → Nat → List Char → Option (Nat × List Char)
  | 0, acc, cs => some (acc, cs)
  | w + 1, acc, c :: cs =>
      match valOf c with
      | some d => readFixed valOf b w (acc * b + d) cs
      | none => none
  | _ + 1, _, [] => none

/-- Unbounded decimal rendering of a `Nat`, most significant digit first
(Rust's `itoa`, used by serde_json for integers). -/
def natDigits (n : Nat) : List Char :=
  if n < 10 then [digitChar n]
  else natDigits (n / 10) ++ [digitChar (n % 10)]
  decreasing_by exact Nat.div_lt_self (by omega) (by omega)

/-- The value of a run of decimal digit characters. -/
def valDigits (ds : List Char) : Nat :=
  ds.foldl (fun a c => a * 10 + (c.toNat - 48)) 0

/-- Read a maximal nonempty run of decimal digits (JSON number tail). -/
def readNatLoose (cs : List Char) : Option (Nat × List Char) :=
  let ds := cs.takeWhile Char.isDigit
  if ds.isEmpty then none
  else some (valDigits ds, cs.dropWhile Char.isDigit)

/-! ## JSON string escaping (serde_json's compact serializer) -/

/-- serde_json's escape of one character: `"` and `\` get a backslash;
the control characters BS, TAB, LF, FF, CR get their short escapes; other
control characters below 0x20 become `\u00XX`; everything else — including
characters outside the BMP — is emitted literally. -/
def escapeChar (c : Char) : List Char :=
  if c = '"' then ['\\', '"']
  else if c = '\\' then ['\\', '\\']
  else if c.toNat = 8 then ['\\', 'b']
  else if c.toNat = 9 then ['\\', 't']
  else if c.toNat = 10 then ['\\', 'n']
  else if c.toNat = 12 then ['\\', 'f']
  else if c.toNat = 13 then ['\\', 'r']
  else if c.toNat < 32 then '\\' :: 'u' :: '0' :: '0' :: padHex 2 c.toNat
  else [c]

/-- Escape a whole string body. -/
def escapeList : List Char → List Char
  | [] => []
  | c :: t => escapeChar c ++ escapeList t

/-- Parse a JSON string body up to (and consuming) the closing quote,
undoing the escapes.  `\uXXXX` below the surrogate range decodes to the
scalar (the compact serializer only ever emits `\u00XX`).  The fuel
argument (one unit per decoded character) makes the recursion structural;
callers pass the remaining input length, which always suffices. -/
def parseStringBody : Nat → List Char → Option (List Char × List Char)
  | 0, _ => none
  | _ + 1, [] => none
  | fuel + 1, c :: cs1 =>
    if c = '"' then some ([], cs1)
    else if c = '\\' then
      match cs1 with
      | [] => none
      | e :: cs2 =>
        if e = '"' then
          (parseStringBody fuel cs2).map (fun p => ('"' :: p.1, p.2))
        else if e = '\\' then
          (parseStringBody fuel cs2).map (fun p => ('\\' :: p.1, p.2))
        else if e = '/' then
          (parseStringBody fuel cs2).map (fun p => ('/' :: p.1, p.2))
        else if e = 'b' then
          (parseStringBody fuel cs2).map (fun p => (Char.ofNat 8 :: p.1, p.2))
        else if e = 'f' then
          (parseStringBody fuel cs2).map (fun p => (Char.ofNat 12 :: p.1, p.2))
        else if e = 'n' then
          (parseStringBody fuel cs2).map (fun p => (Char.ofNat 10 :: p.1, p.2))
        else if e = 'r' then
          (parseStringBody fuel cs2).map (fun p => (Char.ofNat 13 :: p.1, p.2))
        else if e = 't' then
          (parseStringBody fuel cs2).map (fun p => (Char.ofNat 9 :: p.1, p.2))
        else if e = 'u' then
          match cs2 with
          | h1 :: h2 :: h3 :: h4 :: cs3 =>
            match hexVal h1, hexVal h2, hexVal h3, hexVal h4 with
            | some a, some b, some c2, some d =>
              let code := a * 4096 + b * 256 + c2 * 16 + d
              if code < 55296 then
                (parseStringBody fuel cs3).map (fun p => (Char.ofNat code :: p.1, p.2))
              else none
            | _, _, _, _ => none
          | _ => none
        else none
    else
      (parseStringBody fuel cs1).map (fun p => (c :: p.1, p.2))

/-! ## JSON rendering and parsing (compact form, as `serde_json::to_string`
emits and `serde_json::from_str` reads) -/

/-- Unbounded decimal/integer rendering. -/
def renderInt (n : Int) : List Char :=
  if n < 0 then '-' :: natDigits (-n).toNat else natDigits n.toNat

mutual

/-- `serde_json::to_string`: compact rendering, no whitespace. -/
def renderJson : Json → List Char
  | .null => "null".data
  | .bool true => "true".data
  | .bool false => "false".data
  | .num n => renderInt n
  | .str s => '"' :: escapeList s ++ ['"']
  | .arr xs => '[' :: renderElems xs ++ [']']
  | .obj ms => '{' :: renderMembers ms ++ ['}']

def renderElems : List Json → List Char
  | [] => []
  | [x] => renderJson x
  | x :: xs => renderJson x ++ ',' :: renderElems xs

def renderMembers : List (List Char × Json) → List Char
  | [] => []
  | [(k, v)] => '"' :: escapeList k ++ '"' :: ':' :: renderJson v
  | (k, v) :: ms =>
      '"' :: escapeList k ++ '"' :: ':' :: renderJson v ++ ',' :: renderMembers ms

end

mutual

/-- Structural size of a JSON value, a lower bound on parser fuel. -/
def jsonSize : Json → Nat
  | .null => 1
  | .bool _ => 1
  | .num _ => 1
  | .str _ => 1
  | .arr xs => 1 + sizeElems xs
  | .obj ms => 1 + sizeMembers ms

def sizeElems : List Json → Nat
  | [] => 0
  | x :: xs => 1 + jsonSize x + sizeElems xs

def sizeMembers : List (List Char × Json) → Nat
  | [] => 0
  | (_, v) :: ms => 1 + jsonSize v + sizeMembers ms

end

mutual

/-- Fuelled JSON value parser over the compact grammar. -/
def parseValue : Nat → List Char → Option (Json × List Char)
  | 0, _ => none
  | fuel + 1, cs =>
    match cs with
    | [] => none
    | c :: rest =>
      if c = 'n' then
        match rest with
        | 'u' :: 'l' :: 'l' :: r => some (.null, r)
        | _ => none
      else if c = 't' then
        match rest with
        | 'r' :: 'u' :: 'e' :: r => some (.bool true, r)
        | _ => none
      else if c = 'f' then
        match rest with
        | 'a' :: 'l' :: 's' :: 'e' :: r => some (.bool false, r)
        | _ => none
      else if c = '"' then
        match parseStringBody rest.length rest with
        | some (s, r) => some (.str s, r)
        | none => none
      else if c = '[' then
        match rest with
        | [] => none
        | c2 :: r2 =>
          if c2 = ']' then some (.arr [], r2)
          else
            match parseElems fuel (c2 :: r2) with
            | some (xs, r) => some (.arr xs, r)
            | none => none
      else if c = '{' then
        match rest with
        | [] => none
        | c2 :: r2 =>
          if c2 = '}' then some (.obj [], r2)
          else
            match parseMembers fuel (c2 :: r2) with
            | some (ms, r) => some (.obj ms, r)
            | none => none
      else if c = '-' then
        match readNatLoose rest with
        | some (n, r) => some (.num (-(n : Int)), r)
        | none => none
      else
        match readNatLoose cs with
        | some (n, r) => some (.num (n : Int), r)
        | none => none

/-- Parse the elements of a nonempty array, consuming the closing `]`. -/
def parseElems : Nat → List Char → Option (List Json × List Char)
  | 0, _ => none
  | fuel + 1, cs =>
    match parseValue fuel cs with
    | none => none
    | some (v, r) =>
      match r with
      | ',' :: r2 =>
          match parseElems fuel r2 with
          | some (xs, r3) => some (v :: xs, r3)
          | none => none
      | ']' :: r2 => some ([v], r2)
      | _ => none

/-- Parse the members of a nonempty object, consuming the closing `}`. -/
def parseMembers : Nat → List Char → Option (List (List Char × Json) × List Char)
  | 0, _ => none
  | fuel + 1, cs =>
    match cs with
    | '"' :: r =>
      match parseStringBody r.length r with
      | none => none
      | some (k, r2) =>
        match r2 with
        | ':' :: r3 =>
          match parseValue fuel r3 with
          | none => none
          | some (v, r4) =>
            match r4 with
            | ',' :: r5 =>
                match parseMembers fuel r5 with
                | some (ms, r6) => some ((k, v) :: ms, r6)
                | none => none
            | '}' :: r5 => some ([(k, v)], r5)
            | _ => none
        | _ => none
    | _ => none

end

/-! ## RFC3339 timestamps (chrono's serde format) -/

/-- chrono serializes `DateTime<Utc>` via `to_rfc3339_opts(SecondsFormat::AutoSi,
true)`: fractional seconds are omitted when zero, otherwise printed with 3,
6 or 9 digits (milli/micro/nanosecond groups), and UTC prints `Z`. -/
def renderFrac (nanos : Nat) : List Char :=
  if nanos = 0 then []
  else if nanos % 1000000 = 0 then '.' :: padDec 3 (nanos / 1000000)
  else if nanos % 1000 = 0 then '.' :: padDec 6 (nanos / 1000)
  else '.' :: padDec 9 nanos

/-- RFC3339 rendering: `YYYY-MM-DDTHH:MM:SS[.fff[fff[fff]]]Z`. -/
def renderTimestamp (t : Timestamp) : List Char :=
  padDec 4 t.year ++ '-' :: padDec 2 t.month ++ '-' :: padDec 2 t.day
    ++ 'T' :: padDec 2 t.hour ++ ':' :: padDec 2 t.minute ++ ':' :: padDec 2 t.second
    ++ renderFrac t.nanos ++ ['Z']

/-- Read the decimal value of exactly `w` characters. -/
def readDec (w : Nat) (cs : List Char) : Option (Nat × List Char) :=
  readFixed decVal 10 w 0 cs

/-- Read the hexadecimal value of exactly `w` characters. -/
def readHex (w : Nat) (cs : List Char) : Option (Nat × List Char) :=
  readFixed hexVal 16 w 0 cs

/-- Expect one specific character (a separator) at the head. -/
def expectChar (c : Char) : List Char → Option (List Char)
  | x :: r => if x = c then some r else none
  | [] => none

/-- Parse the optional fractional part followed by the terminal `Z`,
yielding nanoseconds (1–9 fraction digits, scaled). -/
def parseFracZ : List Char → Option Nat
  | ['Z'] => some 0
  | '.' :: rest =>
    let ds := rest.takeWhile Char.isDigit
    match rest.dropWhile Char.isDigit with
    | ['Z'] =>
        if ds.length = 0 ∨ 9 < ds.length then none
        else some (valDigits ds * 10 ^ (9 - ds.length))
    | _ => none
  | _ => none

/-- Parse an RFC3339 UTC timestamp of the shape the renderer produces. -/
def parseTimestamp (cs : List Char) : Option Timestamp :=
  (readDec 4 cs).bind fun (y, r1) =>
  (expectChar '-' r1).bind fun r2 =>
  (readDec 2 r2).bind fun (mo, r3) =>
  (expectChar '-' r3).bind fun r4 =>
  (readDec 2 r4).bind fun (d, r5) =>
  (expectChar 'T' r5).bind fun r6 =>
  (readDec 2 r6).bind fun (h, r7) =>
  (expectChar ':' r7).bind fun r8 =>
  (readDec 2 r8).bind fun (mi, r9) =>
  (expectChar ':' r9).bind fun r10 =>
  (readDec 2 r10).bind fun (sec, r11) =>
  (parseFracZ r11).map fun ns =>
  { year := y, month := mo, day := d, hour := h,
    minute := mi, second := sec, nanos := ns }

/-! ## UUID strings (`uuid` crate, hyphenated lowercase) -/

/-- The canonical hyphenated rendering `xxxxxxxx-xxxx-xxxx-xxxx-xxxxxxxxxxxx`
of a 128-bit value, lowercase (this is `uuid::Uuid`'s `Display`/serde form). -/
def renderUuid (u : Uuid) : List Char :=
  padHex 8 (u.val / 2 ^ 96) ++ '-' :: padHex 4 (u.val / 2 ^ 80 % 2 ^ 16)
    ++ '-' :: padHex 4 (u.val / 2 ^ 64 % 2 ^ 16)
    ++ '-' :: padHex 4 (u.val / 2 ^ 48 % 2 ^ 16)
    ++ '-' :: padHex 12 (u.val % 2 ^ 48)

/-- Parse a hyphenated UUID string (must be consumed exactly). -/
def parseUuid (cs : List Char) : Option Uuid :=
  (readHex 8 cs).bind fun (a, r1) =>
  (expectChar '-' r1).bind fun r2 =>
  (readHex 4 r2).bind fun (b, r3) =>
  (expectChar '-' r3).bind fun r4 =>
  (readHex 4 r4).bind fun (c, r5) =>
  (expectChar '-' r5).bind fun r6 =>
  (readHex 4 r6).bind fun (d, r7) =>
  (expectChar '-' r7).bind fun r8 =>
  (readHex 12 r8).bind fun (e, r9) =>
  match r9 with
  | [] => some ⟨a * 2 ^ 96 + b * 2 ^ 80 + c * 2 ^ 64 + d * 2 ^ 48 + e⟩
  | _ => none

/-! ## serde data binding for the envelope types

`toJson` functions follow the derived `Serialize` impls: structs become
objects with the fields in declaration order, C-like enum variants become
their name as a string, payload variants become single-key objects
(externally tagged), `Option` becomes `null`/value, `Duration` becomes
`{secs, nanos}`.  `fromJson` functions model the derived `Deserialize`
impls on exactly the documents the serializer produces (serde also accepts
field permutations; that freedom is irrelevant to round-tripping). -/

/-- JSON value of a `Uuid`. -/
def uuidJson (u : Uuid) : Json := .str (renderUuid u)

/-- JSON value of a `ProxyId` (newtype: serializes as the inner UUID). -/
def proxyIdJson (p : ProxyId) : Json := uuidJson p.uuid

/-- JSON value of a timestamp. -/
def timestampJson (t : Timestamp) : Json := .str (renderTimestamp t)

/-- JSON value of a `Duration`. -/
def durationJson (d : Duration) : Json :=
  .obj [("secs".data, .num d.secs), ("nanos".data, .num d.nanos)]

/-- JSON value of a `LogLevel` (unit variant → its name). -/
def levelJson (l : LogLevel) : Json := .str (levelDebugText l).data

/-- JSON value of a `ProxyStatus`. -/
def statusJson : ProxyStatus → Json
  | .Starting => .str "Starting".data
  | .Running => .str "Running".data
  | .Stopped => .str "Stopped".data
  | .Error msg => .obj [("Error".data, .str msg.data)]

/-- JSON value of an `Option`, via a field serializer. -/
def optJson (f : α → Json) : Option α → Json
  | none => .null
  | some a => f a

/-- JSON value of a `LogEntry`. -/
def logEntryJson (e : LogEntry) : Json :=
  .obj [("id".data, uuidJson e.id),
        ("timestamp".data, timestampJson e.timestamp),
        ("level".data, levelJson e.level),
        ("message".data, .str e.message.data),
        ("proxy_id".data, proxyIdJson e.proxy_id),
        ("request_id".data, optJson (fun s => .str s.data) e.request_id),
        ("metadata".data, optJson id e.metadata)]

/-- JSON value of a `ProxyStats`. -/
def statsJson (s : ProxyStats) : Json :=
  .obj [("proxy_id".data, proxyIdJson s.proxy_id),
        ("total_requests".data, .num s.total_requests),
        ("successful_requests".data, .num s.successful_requests),
        ("failed_requests".data, .num s.failed_requests),
        ("active_connections".data, .num s.active_connections),
        ("uptime".data, durationJson s.uptime),
        ("bytes_transferred".data, .num s.bytes_transferred)]

/-- JSON value of a `ProxyInfo`. -/
def infoJson (i : ProxyInfo) : Json :=
  .obj [("id".data, proxyIdJson i.id),
        ("name".data, .str i.name.data),
        ("listen_address".data, .str i.listen_address.data),
        ("target_command".data, .arr (i.target_command.map fun s => .str s.data)),
        ("status".data, statusJson i.status),
        ("stats".data, statsJson i.stats)]

/-- JSON value of an `IpcMessage` (externally tagged enum). -/
def messageJson : IpcMessage → Json
  | .ProxyStarted info => .obj [("ProxyStarted".data, infoJson info)]
  | .ProxyStopped id => .obj [("ProxyStopped".data, proxyIdJson id)]
  | .LogEntry e => .obj [("LogEntry".data, logEntryJson e)]
  | .StatsUpdate s => .obj [("StatsUpdate".data, statsJson s)]
  | .GetStatus id => .obj [("GetStatus".data, proxyIdJson id)]
  | .GetLogs pid lim =>
      .obj [("GetLogs".data,
             .obj [("proxy_id".data, proxyIdJson pid),
                   ("limit".data, optJson (fun n : Nat => .num n) lim)])]
  | .Shutdown id => .obj [("Shutdown".data, proxyIdJson id)]
  | .Ping => .str "Ping".data
  | .Pong => .str "Pong".data
  | .Error msg pid =>
      .obj [("Error".data,
             .obj [("message".data, .str msg.data),
                   ("proxy_id".data, optJson proxyIdJson pid)])]

/-- JSON value of an `IpcEnvelope`. -/
def envelopeJson (env : IpcEnvelope) : Json :=
  .obj [("message".data, messageJson env.message),
        ("timestamp".data, timestampJson env.timestamp),
        ("correlation_id".data, optJson uuidJson env.correlation_id)]

/-- Decode a `Uuid` field. -/
def uuidFromJson : Json → Option Uuid
  | .str s => parseUuid s
  | _ => none

/-- Decode a `ProxyId` field. -/
def proxyIdFromJson (j : Json) : Option ProxyId :=
  (uuidFromJson j).map fun u => ⟨u⟩

/-- Decode a timestamp field. -/
def timestampFromJson : Json → Option Timestamp
  | .str s => parseTimestamp s
  | _ => none

/-- Decode an unsigned integer field. -/
def natFromJson : Json → Option Nat
  | .num n => if n < 0 then none else some n.toNat
  | _ => none

/-- Decode a string field. -/
def stringFromJson : Json → Option String
  | .str s => some (String.mk s)
  | _ => none

/-- Decode an `Option` field: JSON `null` is `None` (note that this makes
`Some(Value::Null)` indistinguishable from `None` on the wire). -/
def optFromJson (f : Json → Option α) : Json → Option (Option α)
  | .null => some none
  | j => (f j).map some

/-- Decode a `LogLevel`. -/
def levelFromJson : Json → Option LogLevel
  | .str s =>
      if s = "Debug".data then some .Debug
      else if s = "Info".data then some .Info
      else if s = "Warning".data then some .Warning
      else if s = "Error".data then some .Error
      else if s = "Request".data then some .Request
      else if s = "Response".data then some .Response
      else none
  | _ => none

/-- Decode a `ProxyStatus`. -/
def statusFromJson : Json → Option ProxyStatus
  | .str s =>
      if s = "Starting".data then some .Starting
      else if s = "Running".data then some .Running
      else if s = "Stopped".data then some .Stopped
      else none
  | .obj [(k, .str msg)] =>
      if k = "Error".data then some (.Error (String.mk msg)) else none
  | _ => none

/-- Decode a `Duration`. -/
def durationFromJson : Json → Option Duration
  | .obj [(k1, v1), (k2, v2)] =>
      if k1 = "secs".data ∧ k2 = "nanos".data then
        match natFromJson v1, natFromJson v2 with
        | some s, some n => some { secs := s, nanos := n }
        | _, _ => none
      else none
  | _ => none

/-- Decode a `LogEntry`. -/
def logEntryFromJson : Json → Option LogEntry
  | .obj [(k1, v1), (k2, v2), (k3, v3), (k4, v4), (k5, v5), (k6, v6), (k7, v7)] =>
      if k1 = "id".data ∧ k2 = "timestamp".data ∧ k3 = "level".data
          ∧ k4 = "message".data ∧ k5 = "proxy_id".data ∧ k6 = "request_id".data
          ∧ k7 = "metadata".data then
        match uuidFromJson v1, timestampFromJson v2, levelFromJson v3,
              stringFromJson v4, proxyIdFromJson v5, optFromJson stringFromJson v6,
              optFromJson some v7 with
        | some id, some ts, some lv, some msg, some pid, some rid, some md =>
            some { id := id, timestamp := ts, level := lv, message := msg,
                   proxy_id := pid, request_id := rid, metadata := md }
        | _, _, _, _, _, _, _ => none
      else none
  | _ => none

/-- Decode a `ProxyStats`. -/
def statsFromJson : Json → Option ProxyStats
  | .obj [(k1, v1), (k2, v2), (k3, v3), (k4, v4), (k5, v5), (k6, v6), (k7, v7)] =>
      if k1 = "proxy_id".data ∧ k2 = "total_requests".data
          ∧ k3 = "successful_requests".data ∧ k4 = "failed_requests".data
          ∧ k5 = "active_connections".data ∧ k6 = "uptime".data
          ∧ k7 = "bytes_transferred".data then
        match proxyIdFromJson v1, natFromJson v2, natFromJson v3, natFromJson v4,
              natFromJson v5, durationFromJson v6, natFromJson v7 with
        | some pid, some tr, some sr, some fr, some ac, some up, some bt =>
            some { proxy_id := pid, total_requests := tr, successful_requests := sr,
                   failed_requests := fr, active_connections := ac, uptime := up,
                   bytes_transferred := bt }
        | _, _, _, _, _, _, _ => none
      else none
  | _ => none

/-- Decode the `target_command` string array. -/
def stringListFromJson : Json → Option (List String)
  | .arr xs =>
      xs.foldr (fun j acc =>
        match stringFromJson j, acc with
        | some s, some t => some (s :: t)
        | _, _ => none) (some [])
  | _ => none

/-- Decode a `ProxyInfo`. -/
def infoFromJson : Json → Option ProxyInfo
  | .obj [(k1, v1), (k2, v2), (k3, v3), (k4, v4), (k5, v5), (k6, v6)] =>
      if k1 = "id".data ∧ k2 = "name".data ∧ k3 = "listen_address".data
          ∧ k4 = "target_command".data ∧ k5 = "status".data ∧ k6 = "stats".data then
        match proxyIdFromJson v1, stringFromJson v2, stringFromJson v3,
              stringListFromJson v4, statusFromJson v5, statsFromJson v6 with
        | some id, some nm, some la, some tc, some st, some sts =>
            some { id := id, name := nm, listen_address := la, target_command := tc,
                   status := st, stats := sts }
        | _, _, _, _, _, _ => none
      else none
  | _ => none

/-- Decode an `IpcMessage` (externally tagged). -/
def messageFromJson : Json → Option IpcMessage
  | .str s =>
      if s = "Ping".data then some .Ping
      else if s = "Pong".data then some .Pong
      else none
  | .obj [(k, v)] =>
      if k = "ProxyStarted".data then (infoFromJson v).map .ProxyStarted
      else if k = "ProxyStopped".data then (proxyIdFromJson v).map .ProxyStopped
      else if k = "LogEntry".data then (logEntryFromJson v).map .LogEntry
      else if k = "StatsUpdate".data then (statsFromJson v).map .StatsUpdate
      else if k = "GetStatus".data then (proxyIdFromJson v).map .GetStatus
      else if k = "GetLogs".data then
        match v with
        | .obj [(k1, v1), (k2, v2)] =>
            if k1 = "proxy_id".data ∧ k2 = "limit".data then
              match proxyIdFromJson v1, optFromJson natFromJson v2 with
              | some pid, some lim => some (.GetLogs pid lim)
              | _, _ => none
            else none
        | _ => none
      else if k = "Shutdown".data then (proxyIdFromJson v).map .Shutdown
      else if k = "Error".data then
        match v with
        | .obj [(k1, v1), (k2, v2)] =>
            if k1 = "message".data ∧ k2 = "proxy_id".data then
              match stringFromJson v1, optFromJson proxyIdFromJson v2 with
              | some msg, some pid => some (.Error msg pid)
              | _, _ => none
            else none
        | _ => none
      else none
  | _ => none

/-- Decode an `IpcEnvelope`. -/
def envelopeFromJson : Json → Option IpcEnvelope
  | .obj [(k1, v1), (k2, v2), (k3, v3)] =>
      if k1 = "message".data ∧ k2 = "timestamp".data ∧ k3 = "correlation_id".data then
        match messageFromJson v1, timestampFromJson v2, optFromJson uuidFromJson v3 with
        | some m, some ts, some cid =>
            some { message := m, timestamp := ts, correlation_id := cid }
        | _, _, _ => none
      else none
  | _ => none

/-! ## The wire: `IpcConnection::send_message` / `receive_message` -/

/-- `send_message`'s bytes on the wire for a given envelope:
`serde_json::to_string(&envelope)` followed by the `b"\n"` write. -/
def sendMessageWire (env : IpcEnvelope) : List Char :=
  renderJson (envelopeJson env) ++ ['\n']

/-- `BufReader::read_line`: consume up to and including the first `'\n'`
(or to end of stream), returning the line and the remaining stream. -/
def readLineModel : List Char → List Char × List Char
  | [] => ([], [])
  | c :: rest =>
    if c = '\n' then ([c], rest)
    else
      let (l, r) := readLineModel rest
      (c :: l, r)

/-- Rust `str::trim`: strip whitespace from both ends. -/
def trimChars (cs : List Char) : List Char :=
  ((cs.dropWhile Char.isWhitespace).reverse.dropWhile Char.isWhitespace).reverse

/-- `serde_json::from_str::<IpcEnvelope>`: the whole input must parse as
one JSON document binding to an envelope. -/
def envelopeFromStr (cs : List Char) : Option IpcEnvelope :=
  match parseValue (cs.length + 1) cs with
  | some (j, []) => envelopeFromJson j
  | _ => none

/-- Outcome of `IpcConnection::receive_message`. -/
inductive RecvOutcome
  | closed
  | envelope (env : IpcEnvelope)
  | protoError
deriving DecidableEq

/-- `receive_message`: `read_line`, end-of-stream check, `trim`, decode. -/
def receiveMessage (stream : List Char) : RecvOutcome × List Char :=
  let (line, rest) := readLineModel stream
  if line.length = 0 then (.closed, rest)
  else
    match envelopeFromStr (trimChars line) with
    | some env => (.envelope env, rest)
    | none => (.protoError, rest)

/-! ## Well-formedness of envelope values

The bounds chrono/uuid guarantee for real values: calendar fields in
printable range, nanoseconds below one second, 128-bit UUIDs; plus the one
genuine wire restriction: a `metadata` of `Some(Value::Null)` is not
round-trippable (it serializes as `null`, which decodes to `None`). -/

/-- Printable-range timestamp. -/
def Timestamp.wf (t : Timestamp) : Prop :=
  t.year < 10000 ∧ t.month < 100 ∧ t.day < 100 ∧ t.hour < 100
    ∧ t.minute < 100 ∧ t.second < 100 ∧ t.nanos < 1000000000

instance (t : Timestamp) : Decidable t.wf := by unfold Timestamp.wf; infer_instance

/-- 128-bit UUID value. -/
def Uuid.wf (u : Uuid) : Prop := u.val < 2 ^ 128

instance (u : Uuid) : Decidable u.wf := by unfold Uuid.wf; infer_instance

/-- Well-formed log entry: real identifier/timestamp values, and metadata
not the degenerate `Some(Null)`. -/
def LogEntry.wf (e : LogEntry) : Prop :=
  e.id.wf ∧ e.timestamp.wf ∧ e.proxy_id.uuid.wf ∧ e.metadata ≠ some Json.null

instance (e : LogEntry) : Decidable e.wf := by unfold LogEntry.wf; infer_instance

/-- Well-formed stats: real proxy identifier. -/
def ProxyStats.wf (s : ProxyStats) : Prop := s.proxy_id.uuid.wf

instance (s : ProxyStats) : Decidable s.wf := by unfold ProxyStats.wf; infer_instance

/-- Well-formed proxy info. -/
def ProxyInfo.wf (i : ProxyInfo) : Prop := i.id.uuid.wf ∧ i.stats.wf

instance (i : ProxyInfo) : Decidable i.wf := by unfold ProxyInfo.wf; infer_instance

/-- Well-formed message: every embedded identifier/timestamp is real. -/
def IpcMessage.wf : IpcMessage → Prop
  | .ProxyStarted info => info.wf
  | .ProxyStopped id => id.uuid.wf
  | .LogEntry e => e.wf
  | .StatsUpdate s => s.wf
  | .GetStatus id => id.uuid.wf
  | .GetLogs pid _ => pid.uuid.wf
  | .Shutdown id => id.uuid.wf
  | .Ping => True
  | .Pong => True
  | .Error _ pid => match pid with | some p => p.uuid.wf | none => True

instance (m : IpcMessage) : Decidable m.wf :=
  match m with
  | .ProxyStarted info => inferInstanceAs (Decidable info.wf)
  | .ProxyStopped id => inferInstanceAs (Decidable id.uuid.wf)
  | .LogEntry e => inferInstanceAs (Decidable e.wf)
  | .StatsUpdate s => inferInstanceAs (Decidable s.wf)
  | .GetStatus id => inferInstanceAs (Decidable id.uuid.wf)
  | .GetLogs pid _ => inferInstanceAs (Decidable pid.uuid.wf)
  | .Shutdown id => inferInstanceAs (Decidable id.uuid.wf)
  | .Ping => inferInstanceAs (Decidable True)
  | .Pong => inferInstanceAs (Decidable True)
  | .Error _ (some p) => inferInstanceAs (Decidable p.uuid.wf)
  | .Error _ none => inferInstanceAs (Decidable True)

/-- Well-formed envelope. -/
def IpcEnvelope.wf (env : IpcEnvelope) : Prop :=
  env.message.wf ∧ env.timestamp.wf
    ∧ (match env.correlation_id with | some u => u.wf | none => True)

instance (env : IpcEnvelope) : Decidable env.wf :=
  match env with
  | ⟨m, ts, some u⟩ =>
      inferInstanceAs (Decidable (m.wf ∧ ts.wf ∧ u.wf))
  | ⟨m, ts, none⟩ =>
      inferInstanceAs (Decidable (m.wf ∧ ts.wf ∧ True))

/-- Wrap log entries as `NewLogEntry` events. -/
def newLogEvents (entries : List LogEntry) : List AppEvent :=
  entries.map .NewLogEntry

/-- An `App` in Search mode with an empty query (as `enter_search_mode`
leaves it) over one visible Info entry on the All tab. -/
def searchProbeApp : App :=
  { App.new with
    active_tab := .All
    navigation_mode := .Search
    logs := [mkInfoEntry "hello"] }

/-- Three distinct concrete messages for the flush scenarios. -/
def msgA : IpcMessage := .ProxyStopped ⟨⟨1⟩⟩

/-- Second concrete message. -/
def msgB : IpcMessage := .ProxyStopped ⟨⟨2⟩⟩

/-- Third concrete message. -/
def msgC : IpcMessage := .ProxyStopped ⟨⟨3⟩⟩

/-- A concrete envelope exercising the round-trip stress cases: double
quote, backslash, tab, newline and a character outside the BMP in the
message; metadata present; sub-second timestamp precision. -/
def stressEnvelope : IpcEnvelope :=
  { message := .LogEntry
      { id := ⟨0x123456789abcdef0123456789abcdef⟩
        timestamp := { year := 2024, month := 6, day := 30, hour := 23,
                       minute := 59, second := 58, nanos := 123456789 }
        level := .Request
        message := "he said \"hi\\\"\t→\n😀"
        proxy_id := ⟨⟨42⟩⟩
        request_id := some "req-1"
        metadata := some (.obj [("k".data, .arr [.num 1, .num (-2), .bool true, .null])]) }
    timestamp := { year := 2024, month := 6, day := 30, hour := 23,
                   minute := 59, second := 59, nanos := 500000000 }
    correlation_id := some ⟨77⟩ }

/-- An envelope whose log entry carries `metadata = Some(Value::Null)` —
the degenerate value serde cannot round-trip. -/
def nullMetaEnvelope : IpcEnvelope :=
  { message := .LogEntry
      { id := ⟨5⟩
        timestamp := sampleTimestamp
        level := .Info
        message := "m"
        proxy_id := ⟨⟨6⟩⟩
        request_id := none
        metadata := some .null }
    timestamp := sampleTimestamp
    correlation_id := none }

/-- Length of the proxy+tab filtered view of `app`'s logs under tab `t`. -/
def flen (app : App) (t : TabType) : Nat :=
  (app.logs.filter fun log =>
    proxyMatch app.selected_proxy log.proxy_id && tabMatch t log.level).length

/-- What `nullMetaEnvelope` becomes after one wire round trip: the
`Some(Value::Null)` metadata collapses to `None`. -/
def collapsedEnvelope : IpcEnvelope :=
  { message := .LogEntry
      { id := ⟨5⟩
        timestamp := sampleTimestamp
        level := .Info
        message := "m"
        proxy_id := ⟨⟨6⟩⟩
        request_id := none
        metadata := none }
    timestamp := sampleTimestamp
    correlation_id := none }

/-- A concrete app for the search witness: two Info entries on the All
tab in Search mode with query "user". -/
def searchWitnessApp : App :=
  { App.new with
    active_tab := .All
    navigation_mode := .Search
    search_query := "user"
    logs := [mkInfoEntry "User login successful", mkInfoEntry "Database ready"] }

/-! # Theorems -/

/-! ## C10: `send` never surfaces an error -/

/-- C10: `BufferedIpcClient::send` returns `Ok(())` for every message in
every channel/buffer state; when the channel send fails (channel closed)
and the overflow buffer is at capacity, the message is silently dropped
(buffer unchanged) and the caller still gets `Ok`. -/
theorem c10_send_always_ok (closed : Bool) (queueLen : Nat)
    (buffer : List IpcMessage) (m : IpcMessage) :
    (BufferedIpcClient.send closed queueLen buffer m).result = .ok ()
    ∧ (buffer.length = MAX_BUFFER_SIZE →
        (BufferedIpcClient.send true queueLen buffer m).buffer = buffer
        ∧ (BufferedIpcClient.send true queueLen buffer m).outcome = .overflowDropped) := by
  constructor
  · unfold BufferedIpcClient.send
    split
    · split <;> rfl
    · split <;> rfl
  · intro hfull
    unfold BufferedIpcClient.send
    rw [hfull]
    simp

/-- C10 witness: a concrete closed-channel send against a buffer at the
cap returns `Ok` with the buffer unchanged. -/
theorem c10_send_always_ok_witness :
    (BufferedIpcClient.send true 0 (List.replicate MAX_BUFFER_SIZE msgA) msgB).result
        = .ok ()
    ∧ (BufferedIpcClient.send true 0 (List.replicate MAX_BUFFER_SIZE msgA) msgB).buffer
        = List.replicate MAX_BUFFER_SIZE msgA :=
  ⟨(c10_send_always_ok true 0 (List.replicate MAX_BUFFER_SIZE msgA) msgB).1,
   ((c10_send_always_ok true 0 (List.replicate MAX_BUFFER_SIZE msgA) msgB).2
      (by simp)).1⟩

/-! ## C2: behavior of `send` on a full (but open) queue -/

/-- C2 (failing-input evaluation): when the bounded channel is open and
holds `CHANNEL_CAPACITY` messages, `send` parks the caller inside
`mpsc::Sender::send` until capacity frees — it does not enqueue into the
overflow buffer (the buffer is left untouched), contrary to the claim. -/
theorem c2_full_queue_send_suspends (buffer : List IpcMessage) (m : IpcMessage) :
    (BufferedIpcClient.send false CHANNEL_CAPACITY buffer m).outcome
        = .suspendsThenEnqueues
    ∧ (BufferedIpcClient.send false CHANNEL_CAPACITY buffer m).buffer = buffer
    ∧ (BufferedIpcClient.send false CHANNEL_CAPACITY buffer m).outcome
        ≠ .overflowBuffered := by
  refine ⟨rfl, rfl, ?_⟩
  intro h
  rw [show (BufferedIpcClient.send false CHANNEL_CAPACITY buffer m).outcome
        = .suspendsThenEnqueues from rfl] at h
  exact SendOutcome.noConfusion h

/-! ## C9: non-state wire messages leave the monitor untouched -/

/-- C9: for every received envelope whose message is `GetStatus`,
`GetLogs`, `Shutdown`, `Ping`, `Pong` or `Error`, the reader task forwards
no `AppEvent` and the app state is unchanged. -/
theorem c9_non_state_messages_ignored (app : App) (id pid sid : ProxyId)
    (lim : Option Nat) (msg : String) (opid : Option ProxyId) :
    eventOfMessage (.GetStatus id) = none
    ∧ processEnvelopeMessage app (.GetStatus id) = app
    ∧ eventOfMessage (.GetLogs pid lim) = none
    ∧ processEnvelopeMessage app (.GetLogs pid lim) = app
    ∧ eventOfMessage (.Shutdown sid) = none
    ∧ processEnvelopeMessage app (.Shutdown sid) = app
    ∧ eventOfMessage .Ping = none
    ∧ processEnvelopeMessage app .Ping = app
    ∧ eventOfMessage .Pong = none
    ∧ processEnvelopeMessage app .Pong = app
    ∧ eventOfMessage (.Error msg opid) = none
    ∧ processEnvelopeMessage app (.Error msg opid) = app :=
  ⟨rfl, rfl, rfl, rfl, rfl, rfl, rfl, rfl, rfl, rfl, rfl, rfl⟩

/-! ## C3: reconnect flush -/

/-- On the first failing send of a flush, the loop has delivered exactly
the prior prefix, re-buffers only the failing message (at the back of the
current buffer, bounded) and reports the connection lost; the rest of the
drained messages are discarded. -/
theorem flushLoop_first_failure (ok : Nat → Bool) (l : List IpcMessage) :
    ∀ (i k : Nat) (buf : List IpcMessage) (hk : k < l.length),
      (∀ j, j < k → ok (i + j) = true) → ok (i + k) = false →
      buf.length < MAX_BUFFER_SIZE →
      flushLoop ok i l buf =
        { sent := l.take k, buffer := buf ++ [l.get ⟨k, hk⟩], connected := false } := by
  induction l with
  | nil =>
      intro i k buf hk hfirst hfail hlen
      simp at hk
  | cons m rest ih =>
      intro i k buf hk hfirst hfail hlen
      cases k with
      | zero =>
          have h0 : ok i = false := by simpa using hfail
          simp [flushLoop, h0, hlen]
      | succ k' =>
          have h0 : ok i = true := by simpa using hfirst 0 (Nat.succ_pos _)
          have ih' := ih (i + 1) k' buf (by simpa using hk)
            (fun j hj => by
              have h := hfirst (j + 1) (by omega)
              have he : i + 1 + j = i + (j + 1) := by omega
              rw [he]
              exact h)
            (by
              have he : i + 1 + k' = i + (k' + 1) := by omega
              rw [he]
              exact hfail)
            hlen
          simp [flushLoop, h0, ih']

/-- C3 (amended): on a reconnect flush the overflow buffer is drained
wholesale up front and the drained events are sent in FIFO order; if the
`k`-th send is the first to fail, exactly the first `k` events were
delivered, the buffer afterwards holds only the failing event (re-enqueued
at the back of the just-emptied buffer), the not-yet-sent drained events
are dropped, and the connection is discarded. -/
theorem c3_reconnect_flush (ok : Nat → Bool) (buf : List IpcMessage) (k : Nat)
    (hk : k < buf.length) (hfirst : ∀ j, j < k → ok j = true) (hfail : ok k = false) :
    (flushOnConnect ok buf).sent = buf.take k
    ∧ (flushOnConnect ok buf).buffer = [buf.get ⟨k, hk⟩]
    ∧ (flushOnConnect ok buf).connected = false := by
  unfold flushOnConnect
  rw [flushLoop_first_failure ok buf 0 k [] hk
    (fun j hj => by simpa using hfirst j hj) (by simpa using hfail)
    (by simp [MAX_BUFFER_SIZE])]
  simp

/-- C3 witness: with sends succeeding once then failing, flushing the
buffer `[A, B]` delivers `A`, leaves exactly `[B]` buffered and drops the
connection. -/
theorem c3_reconnect_flush_witness :
    (flushOnConnect (fun i => i == 0) [msgA, msgB]).sent = [msgA]
    ∧ (flushOnConnect (fun i => i == 0) [msgA, msgB]).buffer = [msgB]
    ∧ (flushOnConnect (fun i => i == 0) [msgA, msgB]).connected = false := by
  have h := c3_reconnect_flush (fun i => i == 0) [msgA, msgB] 1 (by decide)
    (by decide) (by decide)
  simpa using h

/-- C3 counterexample: with the buffer `[A, B, C]` and the very first send
failing, the code leaves the buffer as `[A]` — not `[A, B, C]` as the
claim ("the failing event and all not-yet-sent drained events remain at
the head in order") requires: `B` and `C` are lost. -/
theorem c3_drops_unsent_counterexample :
    (flushOnConnect (fun _ => false) [msgA, msgB, msgC]).buffer = [msgA]
    ∧ (flushOnConnect (fun _ => false) [msgA, msgB, msgC]).buffer ≠ [msgA, msgB, msgC]
    ∧ (flushOnConnect (fun _ => false) [msgA, msgB, msgC]).connected = false := by
  refine ⟨rfl, ?_, rfl⟩
  intro h
  rw [show (flushOnConnect (fun _ => false) [msgA, msgB, msgC]).buffer = [msgA] from rfl] at h
  simp [msgA, msgB, msgC] at h

/-! ## C1: eviction adjustment of the saved per-tab states -/

/-- Evaluating `handle_event` on a `NewLogEntry` at the cap (away from
Follow mode): one entry is drained, and the saved per-tab states are left
exactly as they were, because the subtrahend `self.logs.len() - MAX_LOGS`
is computed after the drain and is therefore 0. -/
theorem handle_new_at_cap (app : App) (e : LogEntry)
    (hcap : app.logs.length = MAX_LOGS) (hmode : app.navigation_mode = .Navigate) :
    (app.handle_event (.NewLogEntry e)).logs = (app.logs ++ [e]).drop 1
    ∧ (app.handle_event (.NewLogEntry e)).tab_states = app.tab_states := by
  have h1 : (app.logs ++ [e]).length = MAX_LOGS + 1 := by simp [hcap]
  have h2 : MAX_LOGS < MAX_LOGS + 1 := Nat.lt_succ_self _
  constructor
  · simp only [App.handle_event, h1, h2, if_pos, Nat.add_sub_cancel_left, hmode]
    simp
  · simp only [App.handle_event, h1, h2, if_pos, Nat.add_sub_cancel_left, hmode]
    simp only [List.length_drop, h1]
    funext t
    cases happ : app.tab_states t with
    | mk a b c => simp [happ]

/-- C1 (failing-input evaluation): at the cap with saved per-tab indices
7/3, the next `NewLogEntry` drains one entry from the log, but the saved
`selected_index`/`viewport_offset` stay 7/3 — the adjustment the claim
(and the code's own comment) calls for subtracts the post-drain
`logs.len() - MAX_LOGS`, which is always 0; the claim requires 6/2 here. -/
theorem c1_eviction_adjustment_noop :
    (evictionProbeApp.handle_event (.NewLogEntry (mkInfoEntry "fresh"))).logs.length
        = MAX_LOGS
    ∧ evictionProbeApp.logs.length + 1 - MAX_LOGS = 1
    ∧ ((evictionProbeApp.handle_event
          (.NewLogEntry (mkInfoEntry "fresh"))).tab_states TabType.All).selected_index = 7
    ∧ ((evictionProbeApp.handle_event
          (.NewLogEntry (mkInfoEntry "fresh"))).tab_states TabType.All).viewport_offset = 3
    ∧ ¬ ((evictionProbeApp.handle_event
          (.NewLogEntry (mkInfoEntry "fresh"))).tab_states TabType.All).selected_index = 6 := by
  have hcap : evictionProbeApp.logs.length = MAX_LOGS := by
    simp [evictionProbeApp]
  have hmode : evictionProbeApp.navigation_mode = .Navigate := rfl
  obtain ⟨hlogs, hstates⟩ := handle_new_at_cap evictionProbeApp (mkInfoEntry "fresh") hcap hmode
  refine ⟨?_, ?_, ?_, ?_, ?_⟩
  · rw [hlogs]
    simp [hcap]
  · rw [hcap]
    exact Nat.add_sub_cancel_left MAX_LOGS 1
  · rw [hstates]
    rfl
  · rw [hstates]
    rfl
  · rw [hstates]
    intro h
    exact absurd h (by decide)

/-! ## C7: the view consulted in Search/SearchResults mode -/

/-- C7 counterexample: an `App` in Search mode with an empty query (the
state `enter_search_mode` creates) over one visible entry: the effective
view is `[]` (the empty `search_results` mapping), not the proxy+tab
filtered view `[entry]` the claim requires. -/
theorem c7_empty_query_counterexample :
    searchProbeApp.navigation_mode = .Search
    ∧ searchProbeApp.search_query = ""
    ∧ searchProbeApp.get_search_filtered_logs = []
    ∧ searchProbeApp.get_filtered_logs = [mkInfoEntry "hello"]
    ∧ searchProbeApp.get_search_filtered_logs ≠ searchProbeApp.get_filtered_logs := by
  refine ⟨rfl, rfl, rfl, rfl, ?_⟩
  intro h
  rw [show searchProbeApp.get_search_filtered_logs = [] from rfl,
      show searchProbeApp.get_filtered_logs = [mkInfoEntry "hello"] from rfl] at h
  exact List.noConfusion h

/-- C7 (amended): in Search/SearchResults mode the `search_results` index
vector is always consulted, regardless of whether the query is empty;
recomputation with an empty query clears the vector, so the effective view
with an empty query is empty — the regular proxy+tab filtered view is used
only outside Search/SearchResults. -/
theorem c7_search_mode_always_uses_results (app : App)
    (hm : app.navigation_mode = .Search ∨ app.navigation_mode = .SearchResults) :
    app.get_search_filtered_logs = app.search_results.filterMap (fun i => app.logs[i]?)
    ∧ (app.search_query = "" → (app.update_search_results).search_results = [])
    ∧ (app.search_results = [] → app.get_search_filtered_logs = []) := by
  refine ⟨?_, ?_, ?_⟩
  · unfold App.get_search_filtered_logs
    rw [if_pos hm]
  · intro hq
    unfold App.update_search_results
    rw [if_pos hq]
  · intro hr
    unfold App.get_search_filtered_logs
    rw [if_pos hm, hr]
    rfl

/-- C7 witness: the amended statement applied to the concrete Search-mode
state with empty query. -/
theorem c7_search_mode_witness :
    searchProbeApp.get_search_filtered_logs
        = searchProbeApp.search_results.filterMap (fun i => searchProbeApp.logs[i]?)
    ∧ (searchProbeApp.update_search_results).search_results = [] :=
  ⟨(c7_search_mode_always_uses_results searchProbeApp (Or.inl rfl)).1,
   (c7_search_mode_always_uses_results searchProbeApp (Or.inl rfl)).2.1 rfl⟩

/-! ## C8: tab state isolation -/

/-- `save_tab_state` updates exactly the active tab's slot. -/
theorem save_tab_state_states (app : App) (u : TabType) :
    (app.save_tab_state).tab_states u =
      if u = app.active_tab then
        { selected_index := app.selected_index
          viewport_offset := app.viewport_offset
          navigation_mode := app.navigation_mode }
      else app.tab_states u := rfl

/-- `switch_tab` leaves logs, proxy filter and (after the save) the saved
tab states alone, and activates the requested tab. -/
theorem switch_tab_frame (app : App) (t : TabType) :
    (app.switch_tab t).logs = app.logs
    ∧ (app.switch_tab t).selected_proxy = app.selected_proxy
    ∧ (app.switch_tab t).active_tab = t
    ∧ (app.switch_tab t).tab_states = (app.save_tab_state).tab_states := by
  simp only [App.switch_tab]
  split_ifs <;> exact ⟨rfl, rfl, rfl, rfl⟩

/-- The filtered length under any tab is unchanged by `switch_tab`. -/
theorem flen_switch_tab (app : App) (t u : TabType) :
    flen (app.switch_tab t) u = flen app u := by
  unfold flen
  rw [(switch_tab_frame app t).1, (switch_tab_frame app t).2.1]

/-- The selection after `switch_tab`: the saved index clamped to the
incoming tab's filtered length. -/
theorem switch_tab_selected (app : App) (t : TabType) :
    (app.switch_tab t).selected_index =
      if flen app t = 0 then 0
      else min (((app.save_tab_state).tab_states t).selected_index) (flen app t - 1) := by
  simp only [App.switch_tab, App.save_tab_state, App.get_filtered_logs, flen]
  split_ifs with h1 h2 <;> (try dsimp only at *) <;> omega

/-- The viewport after `switch_tab`: zeroed when the incoming view is
empty, otherwise the saved offset. -/
theorem switch_tab_viewport (app : App) (t : TabType) :
    (app.switch_tab t).viewport_offset =
      if flen app t = 0 then 0
      else ((app.save_tab_state).tab_states t).viewport_offset := by
  simp only [App.switch_tab, App.save_tab_state, App.get_filtered_logs, flen]
  split_ifs <;> (try dsimp only at *) <;> rfl

/-- C8: `switch_tab a; switch_tab b; switch_tab a` (with `a ≠ b`) leaves
`selected_index` and `viewport_offset` exactly as last observed on tab `a`
(the values right after the first `switch_tab a`, already clamped), with
the selection in `[0, flen−1]` when tab `a`'s filtered view is nonempty
and both zero when it is empty. -/
theorem c8_tab_state_isolation (app : App) (a b : TabType) (hab : a ≠ b) :
    (((app.switch_tab a).switch_tab b).switch_tab a).selected_index
        = (app.switch_tab a).selected_index
    ∧ (((app.switch_tab a).switch_tab b).switch_tab a).viewport_offset
        = (app.switch_tab a).viewport_offset
    ∧ (flen app a = 0 →
        (((app.switch_tab a).switch_tab b).switch_tab a).selected_index = 0
        ∧ (((app.switch_tab a).switch_tab b).switch_tab a).viewport_offset = 0)
    ∧ (0 < flen app a →
        (((app.switch_tab a).switch_tab b).switch_tab a).selected_index < flen app a) := by
  set app1 := app.switch_tab a with happ1
  set app2 := app1.switch_tab b with happ2
  -- the slot read back by the third switch is the one saved when leaving tab a
  have hst3 : (app2.save_tab_state).tab_states a =
      { selected_index := app1.selected_index
        viewport_offset := app1.viewport_offset
        navigation_mode := app1.navigation_mode } := by
    rw [save_tab_state_states, (switch_tab_frame app1 b).2.2.1, if_neg hab,
        (switch_tab_frame app1 b).2.2.2, save_tab_state_states,
        (switch_tab_frame app a).2.2.1, if_pos rfl]
  have hn2 : flen app2 a = flen app a := by
    rw [happ2, flen_switch_tab, happ1, flen_switch_tab]
  have h3sel := switch_tab_selected app2 a
  have h3vp := switch_tab_viewport app2 a
  have h1sel := switch_tab_selected app a
  have h1vp := switch_tab_viewport app a
  rw [hn2, hst3] at h3sel h3vp
  by_cases hz : flen app a = 0
  · rw [if_pos hz] at h3sel h3vp h1sel h1vp
    rw [← happ1] at h1sel h1vp
    exact ⟨by rw [h3sel, h1sel], by rw [h3vp, h1vp],
           fun _ => ⟨h3sel, h3vp⟩, fun h => absurd hz (by omega)⟩
  · rw [if_neg hz] at h3sel h3vp h1sel h1vp
    rw [← happ1] at h1sel h1vp
    refine ⟨?_, by rw [h3vp, h1vp], fun h => absurd h hz, ?_⟩
    · rw [h3sel, h1sel]
      simp only []
      omega
    · rw [h3sel, h1sel]
      omega

/-- C8 witness: the isolation property at a fresh app with tabs All and
Messages. -/
theorem c8_tab_state_isolation_witness :
    (((App.new.switch_tab .All).switch_tab .Messages).switch_tab .All).selected_index
        = (App.new.switch_tab .All).selected_index
    ∧ (((App.new.switch_tab .All).switch_tab .Messages).switch_tab .All).viewport_offset
        = (App.new.switch_tab .All).viewport_offset :=
  ⟨(c8_tab_state_isolation App.new .All .Messages (by decide)).1,
   (c8_tab_state_isolation App.new .All .Messages (by decide)).2.1⟩

/-! ## C6: search result correctness -/

/-- The index-collecting scan distributes over list append, shifting the
index by the first part's length. -/
theorem searchScan_append (app : App) (q : List Char) (l1 l2 : List LogEntry) :
    ∀ i, searchScan app q i (l1 ++ l2)
      = searchScan app q i l1 ++ searchScan app q (i + l1.length) l2 := by
  induction l1 with
  | nil => intro i; simp [searchScan]
  | cons x t ih =>
      intro i
      have hlen : i + (t.length + 1) = (i + 1) + t.length := by omega
      simp only [List.cons_append, searchScan, List.length_cons, hlen, ih (i + 1)]
      split_ifs <;> simp [ih]

/-- The scan (started at index 0) computes exactly the spec's filtered
index set. -/
theorem searchScan_eq_spec (app : App) (q : List Char) (l : List LogEntry) :
    searchScan app q 0 l = (List.range l.length).filter (specSearchPred app q l) := by
  induction l using List.reverseRecOn with
  | nil => simp [searchScan]
  | append_singleton l x ih =>
      rw [searchScan_append]
      simp only [Nat.zero_add, List.length_append, List.length_singleton,
        List.range_succ, List.filter_append]
      have hcongr : (List.range l.length).filter (specSearchPred app q (l ++ [x]))
          = (List.range l.length).filter (specSearchPred app q l) := by
        apply List.filter_congr
        intro i hi
        have hilt : i < l.length := List.mem_range.mp hi
        unfold specSearchPred
        rw [List.getElem?_append_left hilt]
      rw [hcongr, ← ih]
      congr 1
      have hx : (l ++ [x])[l.length]? = some x := by
        rw [List.getElem?_append_right (Nat.le_refl _)]
        simp
      cases hp : proxyMatch app.selected_proxy x.proxy_id
        <;> cases ht : tabMatch app.active_tab x.level
        <;> cases hm : searchTextMatch app.proxies q x
        <;> simp [searchScan, specSearchPred, hx, hp, ht, hm]

/-- C6: for a non-empty query, the recomputed `search_results` equals the
spec's set: indices whose entry text matches the lowercased query
(message, owning proxy name when known, textual level), intersected with
the proxy and tab filters, in ascending order. -/
theorem c6_search_results_correct (app : App) (hq : app.search_query ≠ "") :
    (app.update_search_results).search_results = specSearchResults app := by
  unfold App.update_search_results
  rw [if_neg hq]
  exact searchScan_eq_spec app (lowerChars app.search_query.data) app.logs

/-- C6 witness: the correctness statement at a concrete Search-mode app
with query "user". -/
theorem c6_search_results_correct_witness :
    searchWitnessApp.search_query ≠ ""
    ∧ (searchWitnessApp.update_search_results).search_results
        = specSearchResults searchWitnessApp :=
  ⟨by decide, c6_search_results_correct searchWitnessApp (by decide)⟩

/-! ## C4: bounded log with FIFO eviction -/

/-- The `NewLogEntry` arm of `handle_event`, decomposed (definitionally)
into the push/drain step followed by the Follow-mode selection snap. -/
theorem handle_new_decompose (app : App) (e : LogEntry) :
    app.handle_event (.NewLogEntry e) =
      (fun b : App =>
        if b.navigation_mode = NavigationMode.Follow then
          if b.get_search_filtered_logs.isEmpty then b
          else { b with selected_index := b.get_search_filtered_logs.length - 1 }
        else b)
      ((fun a2 : App =>
        if a2.logs.length > MAX_LOGS then
          { a2 with
            logs := a2.logs.drop (a2.logs.length - MAX_LOGS)
            tab_states := fun t =>
              { a2.tab_states t with
                selected_index :=
                  if (a2.tab_states t).selected_index > 0 then
                    (a2.tab_states t).selected_index
                      - ((a2.logs.drop (a2.logs.length - MAX_LOGS)).length - MAX_LOGS)
                  else (a2.tab_states t).selected_index
                viewport_offset :=
                  if (a2.tab_states t).viewport_offset > 0 then
                    (a2.tab_states t).viewport_offset
                      - ((a2.logs.drop (a2.logs.length - MAX_LOGS)).length - MAX_LOGS)
                  else (a2.tab_states t).viewport_offset } }
        else a2)
      { app with logs := app.logs ++ [e] }) := rfl

/-- One `NewLogEntry` leaves the log equal to the last `MAX_LOGS` entries
of the old log plus the new entry. -/
theorem handle_new_logs_eq (app : App) (e : LogEntry) :
    (app.handle_event (.NewLogEntry e)).logs = takeLast MAX_LOGS (app.logs ++ [e]) := by
  rw [handle_new_decompose]
  dsimp only
  unfold takeLast
  by_cases h1 : (app.logs ++ [e]).length > MAX_LOGS
  · rw [if_pos h1, apply_ite App.logs, apply_ite App.logs]
    dsimp only
    rw [ite_self, ite_self]
  · rw [if_neg h1, apply_ite App.logs, apply_ite App.logs]
    dsimp only
    rw [ite_self, ite_self]
    rw [show (app.logs ++ [e]).length - MAX_LOGS = 0 by omega, List.drop_zero]

/-- `NewLogEntry` handling does not touch mode, tab, proxy filter, search
state or the proxy map. -/
theorem handle_new_frame (app : App) (e : LogEntry) :
    (app.handle_event (.NewLogEntry e)).navigation_mode = app.navigation_mode
    ∧ (app.handle_event (.NewLogEntry e)).active_tab = app.active_tab
    ∧ (app.handle_event (.NewLogEntry e)).selected_proxy = app.selected_proxy
    ∧ (app.handle_event (.NewLogEntry e)).search_query = app.search_query
    ∧ (app.handle_event (.NewLogEntry e)).search_results = app.search_results
    ∧ (app.handle_event (.NewLogEntry e)).proxies = app.proxies := by
  rw [handle_new_decompose]
  dsimp only
  by_cases h1 : (app.logs ++ [e]).length > MAX_LOGS
  · rw [if_pos h1]
    refine ⟨?_, ?_, ?_, ?_, ?_, ?_⟩
    · rw [apply_ite App.navigation_mode, apply_ite App.navigation_mode]
      dsimp only
      rw [ite_self, ite_self]
    · rw [apply_ite App.active_tab, apply_ite App.active_tab]
      dsimp only
      rw [ite_self, ite_self]
    · rw [apply_ite App.selected_proxy, apply_ite App.selected_proxy]
      dsimp only
      rw [ite_self, ite_self]
    · rw [apply_ite App.search_query, apply_ite App.search_query]
      dsimp only
      rw [ite_self, ite_self]
    · rw [apply_ite App.search_results, apply_ite App.search_results]
      dsimp only
      rw [ite_self, ite_self]
    · rw [apply_ite App.proxies, apply_ite App.proxies]
      dsimp only
      rw [ite_self, ite_self]
  · rw [if_neg h1]
    refine ⟨?_, ?_, ?_, ?_, ?_, ?_⟩
    · rw [apply_ite App.navigation_mode, apply_ite App.navigation_mode]
      dsimp only
      rw [ite_self, ite_self]
    · rw [apply_ite App.active_tab, apply_ite App.active_tab]
      dsimp only
      rw [ite_self, ite_self]
    · rw [apply_ite App.selected_proxy, apply_ite App.selected_proxy]
      dsimp only
      rw [ite_self, ite_self]
    · rw [apply_ite App.search_query, apply_ite App.search_query]
      dsimp only
      rw [ite_self, ite_self]
    · rw [apply_ite App.search_results, apply_ite App.search_results]
      dsimp only
      rw [ite_self, ite_self]
    · rw [apply_ite App.proxies, apply_ite App.proxies]
      dsimp only
      rw [ite_self, ite_self]

/-- In Follow mode (search not active) on the All tab with no proxy
filter, the effective view is the whole log. -/
theorem gsfl_follow_all (b : App) (hmode : b.navigation_mode = .Follow)
    (htab : b.active_tab = .All) (hproxy : b.selected_proxy = none) :
    b.get_search_filtered_logs = b.logs := by
  unfold App.get_search_filtered_logs App.get_filtered_logs
  rw [hmode, htab, hproxy]
  simp [proxyMatch, tabMatch]

/-- The Follow-mode snap at the end of the `NewLogEntry` arm pins the
selection to the last element of the log (All tab, no proxy filter,
nonempty log). -/
theorem follow_snap_selected (b : App) (hmode : b.navigation_mode = .Follow)
    (htab : b.active_tab = .All) (hproxy : b.selected_proxy = none)
    (hne : b.logs ≠ []) :
    ((fun b : App =>
        if b.navigation_mode = NavigationMode.Follow then
          if b.get_search_filtered_logs.isEmpty then b
          else { b with selected_index := b.get_search_filtered_logs.length - 1 }
        else b) b).selected_index
      = ((fun b : App =>
        if b.navigation_mode = NavigationMode.Follow then
          if b.get_search_filtered_logs.isEmpty then b
          else { b with selected_index := b.get_search_filtered_logs.length - 1 }
        else b) b).logs.length - 1 := by
  dsimp only
  rw [gsfl_follow_all b hmode htab hproxy, hmode, if_pos rfl,
    if_neg (by simpa [List.isEmpty_iff] using hne)]

/-- In Follow mode on the All tab with no proxy filter, handling a
`NewLogEntry` pins the selection to the last index of the resulting log. -/
theorem handle_new_follow_all (app : App) (e : LogEntry)
    (hmode : app.navigation_mode = .Follow) (htab : app.active_tab = .All)
    (hproxy : app.selected_proxy = none) :
    (app.handle_event (.NewLogEntry e)).selected_index
      = (app.handle_event (.NewLogEntry e)).logs.length - 1 := by
  rw [handle_new_decompose]
  refine follow_snap_selected _ ?_ ?_ ?_ ?_
  · dsimp only
    rw [apply_ite App.navigation_mode]
    dsimp only
    rw [ite_self]
    exact hmode
  · dsimp only
    rw [apply_ite App.active_tab]
    dsimp only
    rw [ite_self]
    exact htab
  · dsimp only
    rw [apply_ite App.selected_proxy]
    dsimp only
    rw [ite_self]
    exact hproxy
  · dsimp only
    rw [apply_ite App.logs]
    dsimp only
    by_cases h1 : (app.logs ++ [e]).length > MAX_LOGS
    · rw [if_pos h1]
      intro hcon
      have hlen := congrArg List.length hcon
      simp only [List.length_drop, List.length_append, List.length_singleton,
        List.length_nil, MAX_LOGS] at hlen h1
      omega
    · rw [if_neg h1]
      simp

/-- `takeLast` keeps at most `n` elements. -/
theorem takeLast_length_le (n : Nat) (l : List α) : (takeLast n l).length ≤ n := by
  unfold takeLast
  simp only [List.length_drop]
  omega

/-- Trimming the left part first is invisible after the next trim. -/
theorem takeLast_append_left (n : Nat) (l r : List α) :
    takeLast n (takeLast n l ++ r) = takeLast n (l ++ r) := by
  unfold takeLast
  rw [List.drop_append_eq_append_drop, List.drop_append_eq_append_drop, List.drop_drop]
  have h1 : l.length - n + ((l.drop (l.length - n) ++ r).length - n)
      = (l ++ r).length - n := by
    simp only [List.length_append, List.length_drop]
    omega
  have h2 : (l.drop (l.length - n) ++ r).length - n - (l.drop (l.length - n)).length
      = (l ++ r).length - n - l.length := by
    simp only [List.length_append, List.length_drop]
    omega
  rw [h1, h2]

/-- Folding any batch of `NewLogEntry` events keeps exactly the most
recent `MAX_LOGS` entries, in order. -/
theorem applyNew_logs (entries : List LogEntry) :
    ∀ app : App, app.logs.length ≤ MAX_LOGS →
      (app.applyEvents (entries.map AppEvent.NewLogEntry)).logs
        = takeLast MAX_LOGS (app.logs ++ entries) := by
  induction entries with
  | nil =>
      intro app h
      unfold App.applyEvents
      simp only [List.map_nil, List.foldl_nil, List.append_nil]
      unfold takeLast
      rw [show app.logs.length - MAX_LOGS = 0 by omega, List.drop_zero]
  | cons e rest ih =>
      intro app h
      unfold App.applyEvents at ih ⊢
      simp only [List.map_cons, List.foldl_cons]
      have hstep := handle_new_logs_eq app e
      have hlen : (app.handle_event (.NewLogEntry e)).logs.length ≤ MAX_LOGS := by
        rw [hstep]
        exact takeLast_length_le _ _
      rw [ih (app.handle_event (.NewLogEntry e)) hlen, hstep, takeLast_append_left,
        List.append_assoc]
      rfl

/-- The mode/tab/proxy facts survive any batch of `NewLogEntry` events. -/
theorem applyNew_frame (entries : List LogEntry) :
    ∀ app : App,
      (app.applyEvents (entries.map AppEvent.NewLogEntry)).navigation_mode
          = app.navigation_mode
      ∧ (app.applyEvents (entries.map AppEvent.NewLogEntry)).active_tab = app.active_tab
      ∧ (app.applyEvents (entries.map AppEvent.NewLogEntry)).selected_proxy
          = app.selected_proxy := by
  induction entries with
  | nil => intro app; exact ⟨rfl, rfl, rfl⟩
  | cons e rest ih =>
      intro app
      unfold App.applyEvents at ih ⊢
      simp only [List.map_cons, List.foldl_cons]
      obtain ⟨h1, h2, h3⟩ := ih (app.handle_event (.NewLogEntry e))
      obtain ⟨g1, g2, g3, _⟩ := handle_new_frame app e
      exact ⟨h1.trans g1, h2.trans g2, h3.trans g3⟩

/-- C4: any batch of `NewLogEntry` events applied to a fresh `App` retains
exactly the most recent (at most `MAX_LOGS`) entries, in insertion order;
and in the literal S3 scenario — 10,005 entries "Log 0".."Log 10004" fed
to a fresh app on the All tab — 10,000 entries remain, the first is
"Log 5", the last is "Log 10004", the app is still in Follow mode and
`selected_index = 9999`. -/
theorem c4_bounded_log_cap :
    (∀ entries : List LogEntry,
       (App.new.applyEvents (entries.map AppEvent.NewLogEntry)).logs
           = takeLast MAX_LOGS entries
       ∧ (App.new.applyEvents (entries.map AppEvent.NewLogEntry)).logs.length
           ≤ MAX_LOGS)
    ∧ capScenarioApp.logs.length = 10000
    ∧ capScenarioApp.logs.head?.map (fun e => e.message) = some "Log 5"
    ∧ (capScenarioApp.logs[9999]?).map (fun e => e.message) = some "Log 10004"
    ∧ capScenarioApp.navigation_mode = .Follow
    ∧ capScenarioApp.selected_index = 9999 := by
  have hbase : (App.new.switch_tab .All).logs = [] := rfl
  have hblen : (App.new.switch_tab .All).logs.length ≤ MAX_LOGS := by
    rw [hbase]
    simp [MAX_LOGS]
  have hclen : capEntries.length = 10005 := by
    simp [capEntries]
  have hcap : capScenarioApp.logs = capEntries.drop 5 := by
    have h := applyNew_logs capEntries (App.new.switch_tab .All) hblen
    rw [hbase, List.nil_append] at h
    rw [show capScenarioApp
        = (App.new.switch_tab .All).applyEvents (capEntries.map AppEvent.NewLogEntry)
        from rfl, h]
    unfold takeLast
    rw [hclen, show (10005 : Nat) - MAX_LOGS = 5 from by norm_num [MAX_LOGS]]
  have hlen10000 : capScenarioApp.logs.length = 10000 := by
    rw [hcap, List.length_drop, hclen]
  have hgetElem : ∀ j : Nat, j < 10005 →
      capEntries[j]? = some (mkInfoEntry ("Log " ++ toString j)) := by
    intro j hj
    unfold capEntries
    rw [List.getElem?_map, List.getElem?_range hj, Option.map_some']
  have hhead : capScenarioApp.logs.head?.map (fun e => e.message) = some "Log 5" := by
    rw [hcap, List.head?_eq_getElem?, List.getElem?_drop, hgetElem 5 (by norm_num)]
    rfl
  have hlast : (capScenarioApp.logs[9999]?).map (fun e => e.message)
      = some "Log 10004" := by
    rw [hcap, List.getElem?_drop, hgetElem 10004 (by norm_num)]
    rfl
  have hsplit : capEntries
      = ((List.range 10004).map fun i => mkInfoEntry ("Log " ++ toString i))
        ++ [mkInfoEntry ("Log " ++ toString 10004)] := by
    unfold capEntries
    rw [show (10005 : Nat) = 10004 + 1 from rfl, List.range_succ, List.map_append]
    rfl
  have happly : capScenarioApp
      = ((App.new.switch_tab .All).applyEvents
          (((List.range 10004).map fun i => mkInfoEntry ("Log " ++ toString i)).map
            AppEvent.NewLogEntry)).handle_event
          (.NewLogEntry (mkInfoEntry ("Log " ++ toString 10004))) := by
    rw [show capScenarioApp = (App.new.switch_tab .All).applyEvents
        (capEntries.map AppEvent.NewLogEntry) from rfl, hsplit, List.map_append]
    unfold App.applyEvents
    rw [show ([mkInfoEntry ("Log " ++ toString 10004)].map AppEvent.NewLogEntry)
        = [AppEvent.NewLogEntry (mkInfoEntry ("Log " ++ toString 10004))] from rfl,
      List.foldl_concat]
  have hframe := applyNew_frame
    ((List.range 10004).map fun i => mkInfoEntry ("Log " ++ toString i))
    (App.new.switch_tab .All)
  have hmode : capScenarioApp.navigation_mode = .Follow := by
    have h := applyNew_frame capEntries (App.new.switch_tab .All)
    exact h.1.trans rfl
  have hsel : capScenarioApp.selected_index = 9999 := by
    have h := handle_new_follow_all
      ((App.new.switch_tab .All).applyEvents
        (((List.range 10004).map fun i => mkInfoEntry ("Log " ++ toString i)).map
          AppEvent.NewLogEntry))
      (mkInfoEntry ("Log " ++ toString 10004))
      (hframe.1.trans rfl) (hframe.2.1.trans rfl) (hframe.2.2.trans rfl)
    rw [← happly] at h
    rw [h, hlen10000]
  refine ⟨?_, hlen10000, hhead, hlast, hmode, hsel⟩
  intro entries
  have h := applyNew_logs entries App.new (by simp [App.new])
  rw [show App.new.logs = [] from rfl, List.nil_append] at h
  exact ⟨h, by rw [h]; exact takeLast_length_le _ _⟩

/-! ## C5: wire round trip — digit machinery -/

/-- Decimal value of a rendered digit. -/
theorem decVal_digitChar : ∀ d, d < 10 → decVal (digitChar d) = some d := by decide

/-- Hexadecimal value of a rendered digit. -/
theorem hexVal_digitChar : ∀ d, d < 16 → hexVal (digitChar d) = some d := by decide

/-- Rendered decimal digits are digits. -/
theorem isDigit_digitChar : ∀ d, d < 10 → (digitChar d).isDigit = true := by decide

/-- `toNat` of a rendered decimal digit. -/
theorem toNat_digitChar : ∀ d, d < 10 → (digitChar d).toNat - 48 = d := by decide

/-- Fixed-width digit parsing inverts fixed-width rendering. -/
theorem readFixed_padDigits (valOf : Char → Option Nat) (b : Nat) (hb : 2 ≤ b)
    (hv : ∀ d, d < b → valOf (digitChar d) = some d) :
    ∀ (w acc n : Nat) (rest : List Char), n < b ^ w →
      readFixed valOf b w acc (padDigits b w n ++ rest)
        = some (acc * b ^ w + n, rest) := by
  intro w
  induction w with
  | zero =>
      intro acc n rest hn
      simp only [Nat.pow_zero] at hn
      simp [padDigits, readFixed, show n = 0 by omega]
  | succ w ih =>
      intro acc n rest hn
      have hpow : 0 < b ^ w := Nat.pos_pow_of_pos w (by omega)
      have hd : n / b ^ w < b := by
        apply Nat.div_lt_of_lt_mul
        rw [← Nat.pow_succ]
        exact hn
      simp only [padDigits, List.cons_append, readFixed, hv _ hd, List.append_eq]
      rw [ih (acc * b + n / b ^ w) (n % b ^ w) rest (Nat.mod_lt _ hpow)]
      have hdm : n / b ^ w * b ^ w + n % b ^ w = n := by
        rw [Nat.mul_comm]
        exact Nat.div_add_mod n (b ^ w)
      have harith : (acc * b + n / b ^ w) * b ^ w + n % b ^ w
          = acc * b ^ (w + 1) + n := by
        calc (acc * b + n / b ^ w) * b ^ w + n % b ^ w
            = acc * (b ^ w * b) + (n / b ^ w * b ^ w + n % b ^ w) := by ring
          _ = acc * b ^ (w + 1) + n := by rw [hdm, ← Nat.pow_succ]
      rw [harith]

/-- Fixed-width decimal parsing inverts `padDec`. -/
theorem readDec_padDec (w n : Nat) (rest : List Char) (hn : n < 10 ^ w) :
    readDec w (padDec w n ++ rest) = some (n, rest) := by
  unfold readDec padDec
  rw [readFixed_padDigits decVal 10 (by omega) decVal_digitChar w 0 n rest hn]
  simp

/-- Fixed-width hexadecimal parsing inverts `padHex`. -/
theorem readHex_padHex (w n : Nat) (rest : List Char) (hn : n < 16 ^ w) :
    readHex w (padHex w n ++ rest) = some (n, rest) := by
  unfold readHex padHex
  rw [readFixed_padDigits hexVal 16 (by omega) hexVal_digitChar w 0 n rest hn]
  simp

/-- All characters of the decimal rendering are digits. -/
theorem natDigits_all_digit (n : Nat) : ∀ c ∈ natDigits n, c.isDigit = true := by
  induction n using Nat.strong_induction_on with
  | _ n ih =>
      intro c hc
      rw [natDigits] at hc
      by_cases h : n < 10
      · rw [if_pos h] at hc
        simp only [List.mem_singleton] at hc
        subst hc
        exact isDigit_digitChar n h
      · rw [if_neg h] at hc
        rcases List.mem_append.mp hc with h1 | h2
        · exact ih (n / 10) (Nat.div_lt_self (by omega) (by omega)) c h1
        · simp only [List.mem_singleton] at h2
          subst h2
          exact isDigit_digitChar _ (Nat.mod_lt _ (by omega))

/-- The decimal rendering is never empty. -/
theorem natDigits_ne_nil (n : Nat) : natDigits n ≠ [] := by
  rw [natDigits]
  split
  · simp
  · simp

/-- The numeric value of the decimal rendering. -/
theorem valDigits_natDigits (n : Nat) : valDigits (natDigits n) = n := by
  induction n using Nat.strong_induction_on with
  | _ n ih =>
      rw [natDigits]
      by_cases h : n < 10
      · rw [if_pos h]
        unfold valDigits
        simp only [List.foldl_cons, List.foldl_nil, Nat.zero_mul, Nat.zero_add]
        exact toNat_digitChar n h
      · rw [if_neg h]
        unfold valDigits
        rw [List.foldl_concat]
        have hih := ih (n / 10) (Nat.div_lt_self (by omega) (by omega))
        unfold valDigits at hih
        rw [hih, toNat_digitChar _ (Nat.mod_lt _ (by omega))]
        omega

/-- `takeWhile`/`dropWhile` split around an all-true block followed by a
stopping head. -/
theorem takeWhile_dropWhile_split {p : Char → Bool} :
    ∀ (xs rest : List Char), (∀ c ∈ xs, p c = true) →
      (∀ c, rest.head? = some c → p c = false) →
      (xs ++ rest).takeWhile p = xs ∧ (xs ++ rest).dropWhile p = rest := by
  intro xs
  induction xs with
  | nil =>
      intro rest _ hrest
      cases rest with
      | nil => simp
      | cons c t =>
          have := hrest c rfl
          simp [List.takeWhile_cons, List.dropWhile_cons, this]
  | cons x xs ih =>
      intro rest hxs hrest
      have hx : p x = true := hxs x (List.mem_cons_self x xs)
      have hxs' : ∀ c ∈ xs, p c = true := fun c hc => hxs c (List.mem_cons_of_mem x hc)
      obtain ⟨h1, h2⟩ := ih rest hxs' hrest
      simp [List.takeWhile_cons, List.dropWhile_cons, hx, h1, h2]

/-- Greedy digit parsing inverts the decimal rendering when the remainder
does not begin with a digit. -/
theorem readNatLoose_natDigits (n : Nat) (rest : List Char)
    (hrest : ∀ c, rest.head? = some c → c.isDigit = false) :
    readNatLoose (natDigits n ++ rest) = some (n, rest) := by
  obtain ⟨h1, h2⟩ := takeWhile_dropWhile_split (natDigits n) rest
    (natDigits_all_digit n) hrest
  unfold readNatLoose
  rw [h1, h2]
  simp only [List.isEmpty_iff]
  rw [if_neg (natDigits_ne_nil n), valDigits_natDigits]

/-! ## C5: string escape inversion -/

/-- `padHex 2` spelled out. -/
theorem padHex_two (v : Nat) : padHex 2 v = [digitChar (v / 16), digitChar (v % 16)] := by
  simp [padHex, padDigits, pow_one, pow_zero, Nat.div_one]

/-- One parser step on a plain (unescaped) character. -/
theorem psb_plain (f : Nat) (X : List Char) (c : Char) (h1 : ¬ c = '"')
    (h2 : ¬ c = '\\') :
    parseStringBody (f + 1) (c :: X)
      = (parseStringBody f X).map (fun p => (c :: p.1, p.2)) := by
  rw [parseStringBody.eq_def]
  dsimp only
  rw [if_neg h1, if_neg h2]

/-- One parser step on the `\u00XX` escape. -/
theorem psb_u (f : Nat) (X : List Char) (a b : Nat) (ha : a < 16) (hb : b < 16) :
    parseStringBody (f + 1) ('\\' :: 'u' :: '0' :: '0' :: digitChar a :: digitChar b :: X)
      = (if a * 16 + b < 55296 then
          (parseStringBody f X).map (fun p => (Char.ofNat (a * 16 + b) :: p.1, p.2))
        else none) := by
  rw [parseStringBody]
  simp +decide only [hexVal_digitChar a ha, hexVal_digitChar b hb]
  simp +decide [hexVal]

/-- The string-body parser undoes the escaper (with fuel at least one per
source character plus the closing quote). -/
theorem parseStringBody_escapeList :
    ∀ (s : List Char) (fuel : Nat) (rest : List Char), s.length < fuel →
      parseStringBody fuel (escapeList s ++ ('"' :: rest)) = some (s, rest) := by
  intro s
  induction s with
  | nil =>
      intro fuel rest hf
      obtain ⟨f, rfl⟩ : ∃ f, fuel = f + 1 := ⟨fuel - 1, by omega⟩
      rfl
  | cons c t ih =>
      intro fuel rest hf
      obtain ⟨f, rfl⟩ : ∃ f, fuel = f + 1 := ⟨fuel - 1, by omega⟩
      have hf' : t.length < f := by
        simp only [List.length_cons] at hf
        omega
      have iht := ih f rest hf'
      simp only [escapeList, List.append_assoc]
      unfold escapeChar
      by_cases h1 : c = '"'
      · subst h1
        rw [if_pos rfl]
        have hstep : parseStringBody (f + 1)
            (['\\', '"'] ++ (escapeList t ++ '"' :: rest))
            = (parseStringBody f (escapeList t ++ '"' :: rest)).map
                (fun p => ('"' :: p.1, p.2)) := rfl
        rw [hstep, iht]
        rfl
      · rw [if_neg h1]
        by_cases h2 : c = '\\'
        · subst h2
          rw [if_pos rfl]
          have hstep : parseStringBody (f + 1)
              (['\\', '\\'] ++ (escapeList t ++ '"' :: rest))
              = (parseStringBody f (escapeList t ++ '"' :: rest)).map
                  (fun p => ('\\' :: p.1, p.2)) := rfl
          rw [hstep, iht]
          rfl
        · rw [if_neg h2]
          by_cases h3 : c.toNat = 8
          · rw [if_pos h3]
            have hstep : parseStringBody (f + 1)
                (['\\', 'b'] ++ (escapeList t ++ '"' :: rest))
                = (parseStringBody f (escapeList t ++ '"' :: rest)).map
                    (fun p => (Char.ofNat 8 :: p.1, p.2)) := rfl
            rw [hstep, iht]
            simp only [Option.map_some']
            rw [← h3, Char.ofNat_toNat]
          · rw [if_neg h3]
            by_cases h4 : c.toNat = 9
            · rw [if_pos h4]
              have hstep : parseStringBody (f + 1)
                  (['\\', 't'] ++ (escapeList t ++ '"' :: rest))
                  = (parseStringBody f (escapeList t ++ '"' :: rest)).map
                      (fun p => (Char.ofNat 9 :: p.1, p.2)) := rfl
              rw [hstep, iht]
              simp only [Option.map_some']
              rw [← h4, Char.ofNat_toNat]
            · rw [if_neg h4]
              by_cases h5 : c.toNat = 10
              · rw [if_pos h5]
                have hstep : parseStringBody (f + 1)
                    (['\\', 'n'] ++ (escapeList t ++ '"' :: rest))
                    = (parseStringBody f (escapeList t ++ '"' :: rest)).map
                        (fun p => (Char.ofNat 10 :: p.1, p.2)) := rfl
                rw [hstep, iht]
                simp only [Option.map_some']
                rw [← h5, Char.ofNat_toNat]
              · rw [if_neg h5]
                by_cases h6 : c.toNat = 12
                · rw [if_pos h6]
                  have hstep : parseStringBody (f + 1)
                      (['\\', 'f'] ++ (escapeList t ++ '"' :: rest))
                      = (parseStringBody f (escapeList t ++ '"' :: rest)).map
                          (fun p => (Char.ofNat 12 :: p.1, p.2)) := rfl
                  rw [hstep, iht]
                  simp only [Option.map_some']
                  rw [← h6, Char.ofNat_toNat]
                · rw [if_neg h6]
                  by_cases h7 : c.toNat = 13
                  · rw [if_pos h7]
                    have hstep : parseStringBody (f + 1)
                        (['\\', 'r'] ++ (escapeList t ++ '"' :: rest))
                        = (parseStringBody f (escapeList t ++ '"' :: rest)).map
                            (fun p => (Char.ofNat 13 :: p.1, p.2)) := rfl
                    rw [hstep, iht]
                    simp only [Option.map_some']
                    rw [← h7, Char.ofNat_toNat]
                  · rw [if_neg h7]
                    by_cases h8 : c.toNat < 32
                    · rw [if_pos h8]
                      have hsplit : ('\\' :: 'u' :: '0' :: '0' :: padHex 2 c.toNat)
                            ++ (escapeList t ++ '"' :: rest)
                          = '\\' :: 'u' :: '0' :: '0' :: digitChar (c.toNat / 16)
                            :: digitChar (c.toNat % 16)
                            :: (escapeList t ++ '"' :: rest) := by
                        rw [padHex_two]
                        rfl
                      rw [hsplit, psb_u f _ _ _ (by omega) (by omega)]
                      rw [if_pos (by omega)]
                      rw [iht]
                      simp only [Option.map_some']
                      have hval : c.toNat / 16 * 16 + c.toNat % 16 = c.toNat := by
                        omega
                      rw [hval, Char.ofNat_toNat]
                    · rw [if_neg h8]
                      have hstep := psb_plain f (escapeList t ++ '"' :: rest) c h1 h2
                      rw [show [c] ++ (escapeList t ++ '"' :: rest)
                          = c :: (escapeList t ++ '"' :: rest) from rfl, hstep, iht]
                      rfl

/-! ## C5: JSON value round trip at the AST level -/

/-- Escaping produces at least one character per source character. -/
theorem escapeList_length_ge (s : List Char) : s.length ≤ (escapeList s).length := by
  induction s with
  | nil => simp [escapeList]
  | cons c t ih =>
      have hc : 1 ≤ (escapeChar c).length := by
        unfold escapeChar
        split_ifs <;> simp
      simp only [escapeList, List.length_append, List.length_cons]
      omega

/-- Every JSON value has positive size. -/
theorem jsonSize_pos (v : Json) : 1 ≤ jsonSize v := by
  cases v <;> simp [jsonSize]

/-- Nonempty element lists have positive size. -/
theorem sizeElems_pos (xs : List Json) (h : xs ≠ []) : 1 ≤ sizeElems xs := by
  cases xs with
  | nil => exact absurd rfl h
  | cons x t => simp [sizeElems]; omega

/-- Nonempty member lists have positive size. -/
theorem sizeMembers_pos (ms : List (List Char × Json)) (h : ms ≠ []) :
    1 ≤ sizeMembers ms := by
  cases ms with
  | nil => exact absurd rfl h
  | cons m t =>
      cases m
      simp [sizeMembers]
      omega

/-- A digit character is none of the JSON keyword/punctuation starters. -/
theorem digit_not_special (c : Char) (h : c.isDigit = true) :
    ¬ c = 'n' ∧ ¬ c = 't' ∧ ¬ c = 'f' ∧ ¬ c = '"' ∧ ¬ c = '['
      ∧ ¬ c = '{' ∧ ¬ c = '-' ∧ ¬ c = ']' ∧ ¬ c = '}' := by
  refine ⟨?_, ?_, ?_, ?_, ?_, ?_, ?_, ?_, ?_⟩ <;>
    (intro hc; subst hc; exact absurd h (by decide))

/-- The head character of any rendered JSON value is a value starter — in
particular not a closing bracket or brace. -/
theorem renderJson_shape (v : Json) :
    ∃ c cs', renderJson v = c :: cs' ∧ ¬ c = ']' ∧ ¬ c = '}' := by
  cases v with
  | null => exact ⟨'n', _, rfl, by decide, by decide⟩
  | bool b =>
      cases b
      · exact ⟨'f', _, rfl, by decide, by decide⟩
      · exact ⟨'t', _, rfl, by decide, by decide⟩
  | num n =>
      rw [show renderJson (.num n) = renderInt n from rfl]
      unfold renderInt
      by_cases h : n < 0
      · rw [if_pos h]
        exact ⟨'-', _, rfl, by decide, by decide⟩
      · rw [if_neg h]
        rcases hnd : natDigits n.toNat with _ | ⟨c0, cs0⟩
        · exact absurd hnd (natDigits_ne_nil _)
        · have hd : c0.isDigit = true :=
            natDigits_all_digit _ c0 (by rw [hnd]; exact List.mem_cons_self _ _)
          obtain ⟨_, _, _, _, _, _, _, h8, h9⟩ := digit_not_special c0 hd
          exact ⟨c0, cs0, rfl, h8, h9⟩
  | str s => exact ⟨'"', _, rfl, by decide, by decide⟩
  | arr xs => exact ⟨'[', _, rfl, by decide, by decide⟩
  | obj ms => exact ⟨'{', _, rfl, by decide, by decide⟩

/-- A head that is a fixed non-digit character never starts a digit run. -/
theorem noDigitHead_cons (c : Char) (L : List Char) (h : c.isDigit = false) :
    ∀ c', (c :: L).head? = some c' → c'.isDigit = false := by
  intro c' hc'
  simp only [List.head?_cons, Option.some.injEq] at hc'
  rw [← hc']
  exact h

/-- The empty remainder never starts a digit run. -/
theorem noDigitHead_nil : ∀ c', ([] : List Char).head? = some c' → c'.isDigit = false := by
  intro c' hc'
  simp at hc'

/-- The head-character dispatch of `parseValue`, spelled out once
(definitional). -/
theorem pv_head (f : Nat) (c : Char) (rest : List Char) :
    parseValue (f + 1) (c :: rest) =
      (if c = 'n' then
        match rest with
        | 'u' :: 'l' :: 'l' :: r => some (.null, r)
        | _ => none
      else if c = 't' then
        match rest with
        | 'r' :: 'u' :: 'e' :: r => some (.bool true, r)
        | _ => none
      else if c = 'f' then
        match rest with
        | 'a' :: 'l' :: 's' :: 'e' :: r => some (.bool false, r)
        | _ => none
      else if c = '"' then
        match parseStringBody rest.length rest with
        | some (s, r) => some (.str s, r)
        | none => none
      else if c = '[' then
        match rest with
        | [] => none
        | c2 :: r2 =>
          if c2 = ']' then some (.arr [], r2)
          else
            match parseElems f (c2 :: r2) with
            | some (xs, r) => some (.arr xs, r)
            | none => none
      else if c = '{' then
        match rest with
        | [] => none
        | c2 :: r2 =>
          if c2 = '}' then some (.obj [], r2)
          else
            match parseMembers f (c2 :: r2) with
            | some (ms, r) => some (.obj ms, r)
            | none => none
      else if c = '-' then
        match readNatLoose rest with
        | some (n, r) => some (.num (-(n : Int)), r)
        | none => none
      else
        match readNatLoose (c :: rest) with
        | some (n, r) => some (.num (n : Int), r)
        | none => none) := rfl

/-- One parser step on a nonempty array body. -/
theorem pv_lbrack (f : Nat) (c2 : Char) (r2 : List Char) (h : ¬ c2 = ']') :
    parseValue (f + 1) ('[' :: c2 :: r2) =
      match parseElems f (c2 :: r2) with
      | some (xs, r) => some (.arr xs, r)
      | none => none := by
  rw [pv_head]
  simp +decide only [ite_true, ite_false]
  rw [if_neg h]

/-- One parser step on a nonempty object body. -/
theorem pv_lbrace (f : Nat) (c2 : Char) (r2 : List Char) (h : ¬ c2 = '}') :
    parseValue (f + 1) ('{' :: c2 :: r2) =
      match parseMembers f (c2 :: r2) with
      | some (ms, r) => some (.obj ms, r)
      | none => none := by
  rw [pv_head]
  simp +decide only [ite_true, ite_false]
  rw [if_neg h]

/-- One parser step on a number starting with a digit. -/
theorem pv_digit (f : Nat) (c0 : Char) (cs0 : List Char) (h : c0.isDigit = true) :
    parseValue (f + 1) (c0 :: cs0) =
      match readNatLoose (c0 :: cs0) with
      | some (n, r) => some (.num (n : Int), r)
      | none => none := by
  obtain ⟨h1, h2, h3, h4, h5, h6, h7, _, _⟩ := digit_not_special c0 h
  rw [pv_head]
  rw [if_neg h1, if_neg h2, if_neg h3, if_neg h4, if_neg h5, if_neg h6, if_neg h7]

/-- The combined fuel-indexed inversion: parsing undoes rendering for
values, nonempty array bodies, and nonempty object bodies. -/
theorem parse_render_inv : ∀ fuel : Nat,
    (∀ (v : Json) (rest : List Char), jsonSize v ≤ fuel →
      (∀ c, rest.head? = some c → c.isDigit = false) →
      parseValue fuel (renderJson v ++ rest) = some (v, rest))
    ∧ (∀ (xs : List Json) (rest : List Char), xs ≠ [] → sizeElems xs ≤ fuel →
      parseElems fuel (renderElems xs ++ (']' :: rest)) = some (xs, rest))
    ∧ (∀ (ms : List (List Char × Json)) (rest : List Char), ms ≠ [] →
      sizeMembers ms ≤ fuel →
      parseMembers fuel (renderMembers ms ++ ('}' :: rest)) = some (ms, rest)) := by
  intro fuel
  induction fuel with
  | zero =>
      refine ⟨?_, ?_, ?_⟩
      · intro v rest hs _
        have := jsonSize_pos v
        omega
      · intro xs rest hne hs
        have := sizeElems_pos xs hne
        omega
      · intro ms rest hne hs
        have := sizeMembers_pos ms hne
        omega
  | succ f ih =>
      obtain ⟨ihP, ihQ, ihR⟩ := ih
      refine ⟨?_, ?_, ?_⟩
      · -- values
        intro v rest hs hrest
        cases v with
        | null => exact rfl
        | bool b => cases b <;> exact rfl
        | num n =>
            rw [show renderJson (.num n) = renderInt n from rfl]
            unfold renderInt
            by_cases hn : n < 0
            · rw [if_pos hn]
              rw [show ('-' :: natDigits (-n).toNat) ++ rest
                  = '-' :: (natDigits (-n).toNat ++ rest) from rfl]
              rw [show parseValue (f + 1) ('-' :: (natDigits (-n).toNat ++ rest))
                  = (match readNatLoose (natDigits (-n).toNat ++ rest) with
                     | some (m, r) => some (.num (-(m : Int)), r)
                     | none => none) from rfl]
              rw [readNatLoose_natDigits _ rest hrest]
              have hval : -(((-n).toNat : Int)) = n := by omega
              exact congrArg (fun z => some (Json.num z, rest)) hval
            · rw [if_neg hn]
              rcases hnd : natDigits n.toNat with _ | ⟨c0, cs0⟩
              · exact absurd hnd (natDigits_ne_nil _)
              · have hd : c0.isDigit = true :=
                  natDigits_all_digit _ c0 (by rw [hnd]; exact List.mem_cons_self _ _)
                rw [List.cons_append, pv_digit f c0 (cs0 ++ rest) hd,
                  ← List.cons_append, ← hnd, readNatLoose_natDigits _ rest hrest]
                have hval : ((n.toNat : Int)) = n := by omega
                exact congrArg (fun z => some (Json.num z, rest)) hval
        | str s =>
            rw [show renderJson (.str s) ++ rest
                = '"' :: (escapeList s ++ ('"' :: rest)) from by
              rw [show renderJson (.str s) = '"' :: escapeList s ++ ['"'] from rfl]
              simp]
            rw [show parseValue (f + 1) ('"' :: (escapeList s ++ ('"' :: rest)))
                = (match parseStringBody (escapeList s ++ ('"' :: rest)).length
                      (escapeList s ++ ('"' :: rest)) with
                   | some (t, r) => some (.str t, r)
                   | none => none) from rfl]
            rw [parseStringBody_escapeList s _ rest
              (by
                have := escapeList_length_ge s
                simp only [List.length_append, List.length_cons]
                omega)]
        | arr xs =>
            cases xs with
            | nil => exact rfl
            | cons x xs' =>
                obtain ⟨c0, cs0, hshape, hne1, _⟩ := renderJson_shape x
                have hcons : ∃ tail, renderElems (x :: xs') = c0 :: tail := by
                  cases xs' with
                  | nil =>
                      exact ⟨cs0, by rw [show renderElems [x] = renderJson x from rfl,
                        hshape]⟩
                  | cons y ys =>
                      refine ⟨cs0 ++ ',' :: renderElems (y :: ys), ?_⟩
                      rw [show renderElems (x :: y :: ys)
                          = renderJson x ++ ',' :: renderElems (y :: ys) from rfl,
                        hshape, List.cons_append]
                obtain ⟨tail, htail⟩ := hcons
                rw [show renderJson (.arr (x :: xs')) ++ rest
                    = '[' :: (renderElems (x :: xs') ++ (']' :: rest)) from by
                  rw [show renderJson (.arr (x :: xs'))
                      = '[' :: renderElems (x :: xs') ++ [']'] from rfl]
                  simp]
                rw [htail, List.cons_append, pv_lbrack f c0 _ hne1,
                  ← List.cons_append, ← htail]
                rw [ihQ (x :: xs') rest (by simp)
                  (by
                    have : jsonSize (.arr (x :: xs')) = 1 + sizeElems (x :: xs') := rfl
                    omega)]
        | obj ms =>
            cases ms with
            | nil => exact rfl
            | cons m ms' =>
                obtain ⟨k, v0⟩ := m
                have hcons : ∃ tail, renderMembers ((k, v0) :: ms') = '"' :: tail := by
                  cases ms' with
                  | nil => exact ⟨_, rfl⟩
                  | cons m2 ms2 => exact ⟨_, rfl⟩
                obtain ⟨tail, htail⟩ := hcons
                rw [show renderJson (.obj ((k, v0) :: ms')) ++ rest
                    = '{' :: (renderMembers ((k, v0) :: ms') ++ ('}' :: rest))
                    from by
                  rw [show renderJson (.obj ((k, v0) :: ms'))
                      = '{' :: renderMembers ((k, v0) :: ms') ++ ['}'] from rfl]
                  simp]
                rw [htail, List.cons_append, pv_lbrace f '"' _ (by decide),
                  ← List.cons_append, ← htail]
                rw [ihR ((k, v0) :: ms') rest (by simp)
                  (by
                    have : jsonSize (.obj ((k, v0) :: ms'))
                        = 1 + sizeMembers ((k, v0) :: ms') := rfl
                    omega)]
      · -- nonempty array bodies
        intro xs rest hne hs
        cases xs with
        | nil => exact absurd rfl hne
        | cons x xs' =>
            have hsx : sizeElems (x :: xs') = 1 + jsonSize x + sizeElems xs' := rfl
            cases xs' with
            | nil =>
                rw [show renderElems [x] ++ (']' :: rest)
                    = renderJson x ++ (']' :: rest) from rfl]
                rw [show parseElems (f + 1) (renderJson x ++ (']' :: rest))
                    = (match parseValue f (renderJson x ++ (']' :: rest)) with
                       | none => none
                       | some (v, r) =>
                         match r with
                         | ',' :: r2 =>
                             match parseElems f r2 with
                             | some (ys, r3) => some (v :: ys, r3)
                             | none => none
                         | ']' :: r2 => some ([v], r2)
                         | _ => none) from rfl]
                rw [ihP x (']' :: rest)
                  (by
                    have h0 : sizeElems [x] = 1 + jsonSize x + sizeElems [] := rfl
                    have h1 : sizeElems ([] : List Json) = 0 := rfl
                    omega)
                  (noDigitHead_cons _ _ (by decide))]
                exact rfl
            | cons y ys =>
                rw [show renderElems (x :: y :: ys) ++ (']' :: rest)
                    = renderJson x ++ (',' :: (renderElems (y :: ys) ++ (']' :: rest)))
                    from by
                      rw [show renderElems (x :: y :: ys)
                          = renderJson x ++ ',' :: renderElems (y :: ys) from rfl]
                      simp]
                rw [show parseElems (f + 1)
                      (renderJson x ++ (',' :: (renderElems (y :: ys) ++ (']' :: rest))))
                    = (match parseValue f
                          (renderJson x ++ (',' :: (renderElems (y :: ys) ++ (']' :: rest)))) with
                       | none => none
                       | some (v, r) =>
                         match r with
                         | ',' :: r2 =>
                             match parseElems f r2 with
                             | some (ys2, r3) => some (v :: ys2, r3)
                             | none => none
                         | ']' :: r2 => some ([v], r2)
                         | _ => none) from rfl]
                rw [ihP x _
                  (by
                    have h0 : sizeElems (x :: y :: ys)
                        = 1 + jsonSize x + sizeElems (y :: ys) := rfl
                    omega)
                  (noDigitHead_cons _ _ (by decide))]
                show (match parseElems f (renderElems (y :: ys) ++ (']' :: rest)) with
                      | some (ys2, r3) => some (x :: ys2, r3)
                      | none => none) = some (x :: y :: ys, rest)
                rw [ihQ (y :: ys) rest (by simp)
                  (by
                    have h0 : sizeElems (x :: y :: ys)
                        = 1 + jsonSize x + sizeElems (y :: ys) := rfl
                    have h1 := jsonSize_pos x
                    omega)]
      · -- nonempty object bodies
        intro ms rest hne hs
        cases ms with
        | nil => exact absurd rfl hne
        | cons m ms' =>
            obtain ⟨k, v0⟩ := m
            cases ms' with
            | nil =>
                rw [show renderMembers [(k, v0)] ++ ('}' :: rest)
                    = '"' :: (escapeList k ++ ('"' :: (':' :: (renderJson v0
                        ++ ('}' :: rest))))) from by
                      rw [show renderMembers [(k, v0)]
                          = '"' :: escapeList k ++ '"' :: ':' :: renderJson v0 from rfl]
                      simp]
                rw [show parseMembers (f + 1) ('"' :: (escapeList k ++ ('"' :: (':'
                      :: (renderJson v0 ++ ('}' :: rest))))))
                    = (match parseStringBody
                          (escapeList k ++ ('"' :: (':' :: (renderJson v0
                            ++ ('}' :: rest))))).length
                          (escapeList k ++ ('"' :: (':' :: (renderJson v0
                            ++ ('}' :: rest))))) with
                       | none => none
                       | some (k2, r2) =>
                         match r2 with
                         | ':' :: r3 =>
                           match parseValue f r3 with
                           | none => none
                           | some (v, r4) =>
                             match r4 with
                             | ',' :: r5 =>
                                 match parseMembers f r5 with
                                 | some (ms2, r6) => some ((k2, v) :: ms2, r6)
                                 | none => none
                             | '}' :: r5 => some ([(k2, v)], r5)
                             | _ => none
                         | _ => none) from rfl]
                rw [parseStringBody_escapeList k _ _
                  (by
                    have := escapeList_length_ge k
                    simp only [List.length_append, List.length_cons]
                    omega)]
                show (match parseValue f (renderJson v0 ++ ('}' :: rest)) with
                      | none => none
                      | some (v, r4) =>
                        match r4 with
                        | ',' :: r5 =>
                            match parseMembers f r5 with
                            | some (ms2, r6) => some ((k, v) :: ms2, r6)
                            | none => none
                        | '}' :: r5 => some ([(k, v)], r5)
                        | _ => none) = some ([(k, v0)], rest)
                rw [ihP v0 _
                  (by
                    have h0 : sizeMembers [(k, v0)]
                        = 1 + jsonSize v0 + sizeMembers [] := rfl
                    have h1 : sizeMembers ([] : List (List Char × Json)) = 0 := rfl
                    omega)
                  (noDigitHead_cons _ _ (by decide))]
                exact rfl
            | cons m2 ms2 =>
                rw [show renderMembers ((k, v0) :: m2 :: ms2) ++ ('}' :: rest)
                    = '"' :: (escapeList k ++ ('"' :: (':' :: (renderJson v0
                        ++ (',' :: (renderMembers (m2 :: ms2) ++ ('}' :: rest)))))))
                    from by
                      rw [show renderMembers ((k, v0) :: m2 :: ms2)
                          = '"' :: escapeList k ++ '"' :: ':' :: renderJson v0
                            ++ ',' :: renderMembers (m2 :: ms2) from rfl]
                      simp]
                rw [show parseMembers (f + 1) ('"' :: (escapeList k ++ ('"' :: (':'
                      :: (renderJson v0 ++ (',' :: (renderMembers (m2 :: ms2)
                        ++ ('}' :: rest))))))))
                    = (match parseStringBody
                          (escapeList k ++ ('"' :: (':' :: (renderJson v0
                            ++ (',' :: (renderMembers (m2 :: ms2)
                              ++ ('}' :: rest))))))).length
                          (escapeList k ++ ('"' :: (':' :: (renderJson v0
                            ++ (',' :: (renderMembers (m2 :: ms2)
                              ++ ('}' :: rest))))))) with
                       | none => none
                       | some (k2, r2) =>
                         match r2 with
                         | ':' :: r3 =>
                           match parseValue f r3 with
                           | none => none
                           | some (v, r4) =>
                             match r4 with
                             | ',' :: r5 =>
                                 match parseMembers f r5 with
                                 | some (ms3, r6) => some ((k2, v) :: ms3, r6)
                                 | none => none
                             | '}' :: r5 => some ([(k2, v)], r5)
                             | _ => none
                         | _ => none) from rfl]
                rw [parseStringBody_escapeList k _ _
                  (by
                    have := escapeList_length_ge k
                    simp only [List.length_append, List.length_cons]
                    omega)]
                show (match parseValue f (renderJson v0 ++ (',' :: (renderMembers
                        (m2 :: ms2) ++ ('}' :: rest)))) with
                      | none => none
                      | some (v, r4) =>
                        match r4 with
                        | ',' :: r5 =>
                            match parseMembers f r5 with
                            | some (ms3, r6) => some ((k, v) :: ms3, r6)
                            | none => none
                        | '}' :: r5 => some ([(k, v)], r5)
                        | _ => none)
                    = some ((k, v0) :: m2 :: ms2, rest)
                rw [ihP v0 _
                  (by
                    have h0 : sizeMembers ((k, v0) :: m2 :: ms2)
                        = 1 + jsonSize v0 + sizeMembers (m2 :: ms2) := rfl
                    have h1 := sizeMembers_pos (m2 :: ms2) (by simp)
                    omega)
                  (noDigitHead_cons _ _ (by decide))]
                show (match parseMembers f (renderMembers (m2 :: ms2) ++ ('}' :: rest)) with
                      | some (ms3, r6) => some ((k, v0) :: ms3, r6)
                      | none => none) = some ((k, v0) :: m2 :: ms2, rest)
                rw [ihR (m2 :: ms2) rest (by simp)
                  (by
                    have : sizeMembers ((k, v0) :: m2 :: ms2)
                        = 1 + jsonSize v0 + sizeMembers (m2 :: ms2) := rfl
                    omega)]

/-! ## C5: fuel bound — a value's size never exceeds its rendered length -/

/-- Size is bounded by the rendered length (bodies carry one unit of slack
for their closing bracket). -/
theorem size_le_render : ∀ fuel : Nat,
    (∀ v : Json, jsonSize v ≤ fuel → jsonSize v ≤ (renderJson v).length)
    ∧ (∀ xs : List Json, xs ≠ [] → sizeElems xs ≤ fuel →
        sizeElems xs ≤ (renderElems xs).length + 1)
    ∧ (∀ ms : List (List Char × Json), ms ≠ [] → sizeMembers ms ≤ fuel →
        sizeMembers ms ≤ (renderMembers ms).length + 1) := by
  intro fuel
  induction fuel with
  | zero =>
      refine ⟨?_, ?_, ?_⟩
      · intro v hs
        have := jsonSize_pos v
        omega
      · intro xs hne hs
        have := sizeElems_pos xs hne
        omega
      · intro ms hne hs
        have := sizeMembers_pos ms hne
        omega
  | succ f ih =>
      obtain ⟨ihP, ihQ, ihR⟩ := ih
      refine ⟨?_, ?_, ?_⟩
      · intro v hs
        cases v with
        | null => decide
        | bool b => cases b <;> decide
        | num n =>
            have h1 : jsonSize (.num n) = 1 := rfl
            rw [h1, show renderJson (.num n) = renderInt n from rfl]
            unfold renderInt
            split_ifs
            · simp
            · have hne := natDigits_ne_nil n.toNat
              have := List.length_pos.mpr hne
              omega
        | str s =>
            have h1 : jsonSize (.str s) = 1 := rfl
            rw [h1, show renderJson (.str s) = '"' :: escapeList s ++ ['"'] from rfl]
            simp
        | arr xs =>
            cases xs with
            | nil => decide
            | cons x xs' =>
                have h1 : jsonSize (.arr (x :: xs')) = 1 + sizeElems (x :: xs') := rfl
                have h2 : renderJson (.arr (x :: xs'))
                    = '[' :: renderElems (x :: xs') ++ [']'] := rfl
                have hs' : sizeElems (x :: xs') ≤ f := by rw [h1] at hs; omega
                have h3 := ihQ (x :: xs') (by simp) hs'
                rw [h1, h2]
                simp only [List.length_cons, List.length_append, List.length_nil]
                omega
        | obj ms =>
            cases ms with
            | nil => decide
            | cons m ms' =>
                have h1 : jsonSize (.obj (m :: ms')) = 1 + sizeMembers (m :: ms') := rfl
                have h2 : renderJson (.obj (m :: ms'))
                    = '{' :: renderMembers (m :: ms') ++ ['}'] := rfl
                have hs' : sizeMembers (m :: ms') ≤ f := by rw [h1] at hs; omega
                have h3 := ihR (m :: ms') (by simp) hs'
                rw [h1, h2]
                simp only [List.length_cons, List.length_append, List.length_nil]
                omega
      · intro xs hne hs
        cases xs with
        | nil => exact absurd rfl hne
        | cons x xs' =>
            have hsx : sizeElems (x :: xs') = 1 + jsonSize x + sizeElems xs' := rfl
            cases xs' with
            | nil =>
                have h0 : sizeElems ([] : List Json) = 0 := rfl
                have h2 : renderElems [x] = renderJson x := rfl
                have h3 := ihP x (by rw [hsx] at hs; omega)
                rw [hsx, h0, h2]
                omega
            | cons y ys =>
                have h2 : renderElems (x :: y :: ys)
                    = renderJson x ++ ',' :: renderElems (y :: ys) := rfl
                have hjx := jsonSize_pos x
                have h3 := ihP x (by rw [hsx] at hs; omega)
                have h4 := ihQ (y :: ys) (by simp) (by rw [hsx] at hs; omega)
                rw [hsx, h2]
                simp only [List.length_append, List.length_cons]
                omega
      · intro ms hne hs
        cases ms with
        | nil => exact absurd rfl hne
        | cons m ms' =>
            obtain ⟨k, v0⟩ := m
            have hsm : sizeMembers ((k, v0) :: ms')
                = 1 + jsonSize v0 + sizeMembers ms' := rfl
            cases ms' with
            | nil =>
                have h0 : sizeMembers ([] : List (List Char × Json)) = 0 := rfl
                have h2 : renderMembers [(k, v0)]
                    = '"' :: escapeList k ++ '"' :: ':' :: renderJson v0 := rfl
                have h3 := ihP v0 (by rw [hsm] at hs; omega)
                rw [hsm, h0, h2]
                simp only [List.length_cons, List.length_append]
                omega
            | cons m2 ms2 =>
                have h2 : renderMembers ((k, v0) :: m2 :: ms2)
                    = '"' :: escapeList k ++ '"' :: ':' :: renderJson v0
                      ++ ',' :: renderMembers (m2 :: ms2) := rfl
                have hjv := jsonSize_pos v0
                have h3 := ihP v0 (by rw [hsm] at hs; omega)
                have h4 := ihR (m2 :: ms2) (by simp) (by rw [hsm] at hs; omega)
                rw [hsm, h2]
                simp only [List.length_cons, List.length_append]
                omega

/-- The fuel bound for the decoder. -/
theorem jsonSize_le_renderLen (v : Json) : jsonSize v ≤ (renderJson v).length :=
  (size_le_render (jsonSize v)).1 v le_rfl

/-- Whole-document inversion at the decoder's fuel. -/
theorem parseValue_renderJson (v : Json) :
    parseValue ((renderJson v).length + 1) (renderJson v) = some (v, []) := by
  have h := (parse_render_inv ((renderJson v).length + 1)).1 v []
    (by have := jsonSize_le_renderLen v; omega) noDigitHead_nil
  simpa using h

/-! ## C5: timestamp inversion -/

/-- Fixed-width renderings have their width as length. -/
theorem padDigits_length (b : Nat) : ∀ w n, (padDigits b w n).length = w := by
  intro w
  induction w with
  | zero => intro n; rfl
  | succ w ih => intro n; simp [padDigits, ih]

/-- Decimal special case. -/
theorem padDec_length (w n : Nat) : (padDec w n).length = w := padDigits_length 10 w n

/-- Every character of an in-range fixed-width decimal is a digit. -/
theorem padDec_all_digit : ∀ (w n : Nat), n < 10 ^ w →
    ∀ c ∈ padDec w n, c.isDigit = true := by
  intro w
  induction w with
  | zero => intro n h c hc; simp [padDec, padDigits] at hc
  | succ w ih =>
      intro n h c hc
      simp only [padDec, padDigits, List.mem_cons] at hc
      rcases hc with hc | hc
      · subst hc
        exact isDigit_digitChar _ (Nat.div_lt_of_lt_mul (by rw [← Nat.pow_succ]; exact h))
      · exact ih (n % 10 ^ w) (Nat.mod_lt _ (Nat.pos_pow_of_pos w (by omega))) c hc

/-- Folding the digit values over a fixed-width decimal rendering. -/
theorem valDigits_padDigits_aux : ∀ (w acc n : Nat), n < 10 ^ w →
    (padDigits 10 w n).foldl (fun a c => a * 10 + (c.toNat - 48)) acc
      = acc * 10 ^ w + n := by
  intro w
  induction w with
  | zero =>
      intro acc n h
      simp only [Nat.pow_zero] at h
      simp [padDigits, show n = 0 by omega]
  | succ w ih =>
      intro acc n h
      have hd : n / 10 ^ w < 10 := Nat.div_lt_of_lt_mul (by rw [← Nat.pow_succ]; exact h)
      simp only [padDigits, List.foldl_cons]
      rw [toNat_digitChar _ hd]
      rw [ih (acc * 10 + n / 10 ^ w) (n % 10 ^ w)
        (Nat.mod_lt _ (Nat.pos_pow_of_pos w (by omega)))]
      have hdm : n / 10 ^ w * 10 ^ w + n % 10 ^ w = n := by
        rw [Nat.mul_comm]
        exact Nat.div_add_mod n (10 ^ w)
      calc (acc * 10 + n / 10 ^ w) * 10 ^ w + n % 10 ^ w
          = acc * (10 ^ w * 10) + (n / 10 ^ w * 10 ^ w + n % 10 ^ w) := by ring
        _ = acc * 10 ^ (w + 1) + n := by rw [hdm, ← Nat.pow_succ]

/-- The digit value of an in-range fixed-width decimal rendering. -/
theorem valDigits_padDec (w n : Nat) (h : n < 10 ^ w) : valDigits (padDec w n) = n := by
  unfold valDigits padDec
  rw [valDigits_padDigits_aux w 0 n h]
  simp

/-- `parseFracZ` on a dotted fraction, spelled out (definitional). -/
theorem parseFracZ_dot (X : List Char) :
    parseFracZ ('.' :: X) =
      (match X.dropWhile Char.isDigit with
       | ['Z'] =>
           if (X.takeWhile Char.isDigit).length = 0 ∨ 9 < (X.takeWhile Char.isDigit).length
           then none
           else some (valDigits (X.takeWhile Char.isDigit)
             * 10 ^ (9 - (X.takeWhile Char.isDigit).length))
       | _ => none) := rfl

/-- The fraction parser undoes `AutoSi` fractional rendering. -/
theorem parseFracZ_renderFrac (nanos : Nat) (h : nanos < 1000000000) :
    parseFracZ (renderFrac nanos ++ ['Z']) = some nanos := by
  have p3 : (10 : Nat) ^ 3 = 1000 := by norm_num
  have p6 : (10 : Nat) ^ 6 = 1000000 := by norm_num
  have p9 : (10 : Nat) ^ 9 = 1000000000 := by norm_num
  unfold renderFrac
  split_ifs with h0 h6 h3
  · rw [h0]
    rfl
  · rw [List.cons_append, parseFracZ_dot]
    obtain ⟨ht, hd⟩ := takeWhile_dropWhile_split (padDec 3 (nanos / 1000000)) ['Z']
      (padDec_all_digit 3 _ (by rw [p3]; omega))
      (by
        intro c hc
        simp only [List.head?_cons, Option.some.injEq] at hc
        rw [← hc]
        decide)
    rw [ht, hd, padDec_length]
    rw [if_neg (by decide)]
    rw [valDigits_padDec 3 _ (by rw [p3]; omega)]
    exact congrArg some (by norm_num; omega)
  · rw [List.cons_append, parseFracZ_dot]
    obtain ⟨ht, hd⟩ := takeWhile_dropWhile_split (padDec 6 (nanos / 1000)) ['Z']
      (padDec_all_digit 6 _ (by rw [p6]; omega))
      (by
        intro c hc
        simp only [List.head?_cons, Option.some.injEq] at hc
        rw [← hc]
        decide)
    rw [ht, hd, padDec_length]
    rw [if_neg (by decide)]
    rw [valDigits_padDec 6 _ (by rw [p6]; omega)]
    exact congrArg some (by norm_num; omega)
  · rw [List.cons_append, parseFracZ_dot]
    obtain ⟨ht, hd⟩ := takeWhile_dropWhile_split (padDec 9 nanos) ['Z']
      (padDec_all_digit 9 _ (by rw [p9]; omega))
      (by
        intro c hc
        simp only [List.head?_cons, Option.some.injEq] at hc
        rw [← hc]
        decide)
    rw [ht, hd, padDec_length]
    rw [if_neg (by decide)]
    rw [valDigits_padDec 9 _ (by rw [p9]; omega)]
    exact congrArg some (by norm_num)

/-- Separator consumption. -/
theorem expectChar_cons (c : Char) (r : List Char) : expectChar c (c :: r) = some r := by
  simp [expectChar]

/-- The RFC3339 parser undoes the renderer on printable-range timestamps. -/
theorem parseTimestamp_renderTimestamp (t : Timestamp) (h : t.wf) :
    parseTimestamp (renderTimestamp t) = some t := by
  obtain ⟨hy, hmo, hd, hh, hmi, hs, hn⟩ := h
  have hy4 : t.year < 10 ^ 4 := by norm_num; omega
  have hmo2 : t.month < 10 ^ 2 := by norm_num; omega
  have hd2 : t.day < 10 ^ 2 := by norm_num; omega
  have hh2 : t.hour < 10 ^ 2 := by norm_num; omega
  have hmi2 : t.minute < 10 ^ 2 := by norm_num; omega
  have hs2 : t.second < 10 ^ 2 := by norm_num; omega
  have hshape : renderTimestamp t
      = padDec 4 t.year ++ ('-' :: (padDec 2 t.month ++ ('-' :: (padDec 2 t.day
          ++ ('T' :: (padDec 2 t.hour ++ (':' :: (padDec 2 t.minute
          ++ (':' :: (padDec 2 t.second ++ (renderFrac t.nanos ++ ['Z']))))))))))) := by
    simp [renderTimestamp]
  rw [hshape]
  simp only [parseTimestamp, readDec_padDec, expectChar_cons, Option.some_bind,
    hy4, hmo2, hd2, hh2, hmi2, hs2, parseFracZ_renderFrac, hn, Option.map_some']

/-! ## C5: UUID inversion -/

/-- The hyphenated parser undoes the hyphenated renderer on 128-bit values. -/
theorem parseUuid_renderUuid (u : Uuid) (hu : u.wf) :
    parseUuid (renderUuid u) = some u := by
  have hu' : u.val < 2 ^ 128 := hu
  have hA : u.val / 2 ^ 96 < 16 ^ 8 := by
    rw [show (16 : Nat) ^ 8 = 2 ^ 32 from by norm_num]
    exact Nat.div_lt_of_lt_mul (by
      calc u.val < 2 ^ 128 := hu'
        _ = 2 ^ 96 * 2 ^ 32 := by norm_num)
  have hB : u.val / 2 ^ 80 % 2 ^ 16 < 16 ^ 4 := by
    rw [show (16 : Nat) ^ 4 = 2 ^ 16 from by norm_num]
    exact Nat.mod_lt _ (by norm_num)
  have hC : u.val / 2 ^ 64 % 2 ^ 16 < 16 ^ 4 := by
    rw [show (16 : Nat) ^ 4 = 2 ^ 16 from by norm_num]
    exact Nat.mod_lt _ (by norm_num)
  have hD : u.val / 2 ^ 48 % 2 ^ 16 < 16 ^ 4 := by
    rw [show (16 : Nat) ^ 4 = 2 ^ 16 from by norm_num]
    exact Nat.mod_lt _ (by norm_num)
  have hE : u.val % 2 ^ 48 < 16 ^ 12 := by
    rw [show (16 : Nat) ^ 12 = 2 ^ 48 from by norm_num]
    exact Nat.mod_lt _ (by norm_num)
  have hshape : renderUuid u
      = padHex 8 (u.val / 2 ^ 96) ++ ('-' :: (padHex 4 (u.val / 2 ^ 80 % 2 ^ 16)
          ++ ('-' :: (padHex 4 (u.val / 2 ^ 64 % 2 ^ 16)
          ++ ('-' :: (padHex 4 (u.val / 2 ^ 48 % 2 ^ 16)
          ++ ('-' :: padHex 12 (u.val % 2 ^ 48)))))))) := by
    simp [renderUuid]
  rw [hshape]
  rw [← List.append_nil (padHex 12 (u.val % 2 ^ 48))]
  simp only [parseUuid, readHex_padHex, expectChar_cons, Option.some_bind,
    hA, hB, hC, hD, hE]
  have hval : u.val / 2 ^ 96 * 2 ^ 96 + u.val / 2 ^ 80 % 2 ^ 16 * 2 ^ 80
      + u.val / 2 ^ 64 % 2 ^ 16 * 2 ^ 64 + u.val / 2 ^ 48 % 2 ^ 16 * 2 ^ 48
      + u.val % 2 ^ 48 = u.val := by
    have p16 : (2 : Nat) ^ 16 = 65536 := by norm_num
    have p48 : (2 : Nat) ^ 48 = 281474976710656 := by norm_num
    have p64 : (2 : Nat) ^ 64 = 18446744073709551616 := by norm_num
    have p80 : (2 : Nat) ^ 80 = 1208925819614629174706176 := by norm_num
    have p128 : (2 : Nat) ^ 128 = 340282366920938463463374607431768211456 := by
      norm_num
    have p96 : (2 : Nat) ^ 96 = 79228162514264337593543950336 := by norm_num
    rw [p16, p48, p64, p80, p96]
    rw [p128] at hu'
    omega
  rw [hval]

/-! ## C5: data binding — each `fromJson` undoes its `toJson` -/

/-- UUID field. -/
theorem uuidFromJson_uuidJson (u : Uuid) (hu : u.wf) :
    uuidFromJson (uuidJson u) = some u := by
  show parseUuid (renderUuid u) = some u
  exact parseUuid_renderUuid u hu

/-- ProxyId field (newtype). -/
theorem proxyIdFromJson_proxyIdJson (p : ProxyId) (hp : p.uuid.wf) :
    proxyIdFromJson (proxyIdJson p) = some p := by
  show (uuidFromJson (uuidJson p.uuid)).map (fun u => (⟨u⟩ : ProxyId)) = some p
  rw [uuidFromJson_uuidJson p.uuid hp]
  rfl

/-- Timestamp field. -/
theorem timestampFromJson_timestampJson (t : Timestamp) (ht : t.wf) :
    timestampFromJson (timestampJson t) = some t := by
  show parseTimestamp (renderTimestamp t) = some t
  exact parseTimestamp_renderTimestamp t ht

/-- Unsigned integer field. -/
theorem natFromJson_nat (n : Nat) : natFromJson (.num (n : Int)) = some n := by
  show (if (n : Int) < 0 then none else some ((n : Int)).toNat) = some n
  rw [if_neg (by omega)]
  exact congrArg some (by omega)

/-- String field. -/
theorem stringFromJson_data (s : String) : stringFromJson (.str s.data) = some s := rfl

/-- A non-`null` value decodes through the inner decoder. -/
theorem optFromJson_notNull (f : Json → Option α) (j : Json) (hj : j ≠ .null) :
    optFromJson f j = (f j).map some := by
  cases j with
  | null => exact absurd rfl hj
  | bool b => rfl
  | num n => rfl
  | str s => rfl
  | arr xs => rfl
  | obj ms => rfl

/-- Level field. -/
theorem levelFromJson_levelJson (l : LogLevel) : levelFromJson (levelJson l) = some l := by
  cases l <;> decide

/-- Status field. -/
theorem statusFromJson_statusJson (st : ProxyStatus) :
    statusFromJson (statusJson st) = some st := by
  cases st with
  | Starting => decide
  | Running => decide
  | Stopped => decide
  | Error msg =>
      show (if "Error".data = "Error".data
            then some (ProxyStatus.Error (String.mk msg.data)) else none)
          = some (.Error msg)
      rw [if_pos rfl]

/-- Duration field. -/
theorem durationFromJson_durationJson (d : Duration) :
    durationFromJson (durationJson d) = some d := by
  show (if "secs".data = "secs".data ∧ "nanos".data = "nanos".data then
          match natFromJson (.num (d.secs : Int)), natFromJson (.num (d.nanos : Int)) with
          | some s, some n => some ({ secs := s, nanos := n } : Duration)
          | _, _ => none
        else none) = some d
  rw [if_pos ⟨rfl, rfl⟩, natFromJson_nat, natFromJson_nat]

/-- Optional request-id field. -/
theorem optFromJson_reqId (o : Option String) :
    optFromJson stringFromJson (optJson (fun s => .str s.data) o) = some o := by
  cases o with
  | none => rfl
  | some s => rfl

/-- Optional metadata field, away from the degenerate `Some(Null)`. -/
theorem optFromJson_metadata (o : Option Json) (ho : o ≠ some Json.null) :
    optFromJson some (optJson id o) = some o := by
  cases o with
  | none => rfl
  | some j =>
      have hj : j ≠ .null := by
        intro h
        exact ho (by rw [h])
      rw [show optJson id (some j) = j from rfl, optFromJson_notNull some j hj]
      rfl

/-- Optional `limit` field. -/
theorem optFromJson_limit (o : Option Nat) :
    optFromJson natFromJson (optJson (fun n : Nat => .num n) o) = some o := by
  cases o with
  | none => rfl
  | some n =>
      rw [show optJson (fun n : Nat => Json.num n) (some n) = .num (n : Int) from rfl]
      rw [optFromJson_notNull _ _ (by intro h; exact Json.noConfusion h)]
      rw [natFromJson_nat]
      rfl

/-- Optional proxy-id field. -/
theorem optFromJson_pid (o : Option ProxyId)
    (h : match o with | some p => p.uuid.wf | none => True) :
    optFromJson proxyIdFromJson (optJson proxyIdJson o) = some o := by
  cases o with
  | none => rfl
  | some p =>
      rw [show optJson proxyIdJson (some p) = proxyIdJson p from rfl]
      rw [optFromJson_notNull _ _ (by intro hX; exact Json.noConfusion hX)]
      rw [proxyIdFromJson_proxyIdJson p h]
      rfl

/-- Optional correlation-id field. -/
theorem optFromJson_corr (o : Option Uuid)
    (h : match o with | some u => u.wf | none => True) :
    optFromJson uuidFromJson (optJson uuidJson o) = some o := by
  cases o with
  | none => rfl
  | some u =>
      rw [show optJson uuidJson (some u) = uuidJson u from rfl]
      rw [optFromJson_notNull _ _ (by intro hX; exact Json.noConfusion hX)]
      rw [uuidFromJson_uuidJson u h]
      rfl

/-- Log entry binding (metadata not `Some(Null)`). -/
theorem logEntryFromJson_logEntryJson (e : LogEntry) (hid : e.id.wf)
    (hts : e.timestamp.wf) (hpid : e.proxy_id.uuid.wf)
    (hmeta : e.metadata ≠ some Json.null) :
    logEntryFromJson (logEntryJson e) = some e := by
  simp only [logEntryJson, logEntryFromJson]
  rw [if_pos (by simp)]
  rw [uuidFromJson_uuidJson e.id hid, timestampFromJson_timestampJson e.timestamp hts,
    levelFromJson_levelJson, stringFromJson_data,
    proxyIdFromJson_proxyIdJson e.proxy_id hpid, optFromJson_reqId,
    optFromJson_metadata e.metadata hmeta]

/-- Stats binding. -/
theorem statsFromJson_statsJson (s : ProxyStats) (h : s.wf) :
    statsFromJson (statsJson s) = some s := by
  simp only [statsJson, statsFromJson]
  rw [if_pos (by simp)]
  simp only [proxyIdFromJson_proxyIdJson s.proxy_id h, natFromJson_nat,
    durationFromJson_durationJson]

/-- Target-command array binding. -/
theorem stringListFromJson_map (l : List String) :
    stringListFromJson (.arr (l.map fun s => .str s.data)) = some l := by
  induction l with
  | nil => rfl
  | cons s t ih =>
      show (match stringFromJson (.str s.data),
              stringListFromJson (.arr (t.map fun s => .str s.data)) with
            | some a, some b => some (a :: b)
            | _, _ => none) = some (s :: t)
      rw [ih]
      rfl

/-- Proxy info binding. -/
theorem infoFromJson_infoJson (i : ProxyInfo) (h : i.wf) :
    infoFromJson (infoJson i) = some i := by
  obtain ⟨hid, hstats⟩ := h
  simp only [infoJson, infoFromJson]
  rw [if_pos (by simp)]
  rw [proxyIdFromJson_proxyIdJson i.id hid, stringFromJson_data, stringFromJson_data,
    stringListFromJson_map, statusFromJson_statusJson,
    statsFromJson_statsJson i.stats hstats]

/-- Message binding: the externally tagged decoder undoes the encoder on
well-formed messages. -/
theorem messageFromJson_messageJson (m : IpcMessage) (h : m.wf) :
    messageFromJson (messageJson m) = some m := by
  cases m with
  | ProxyStarted info =>
      simp +decide only [messageJson, messageFromJson, ite_true, ite_false]
      rw [infoFromJson_infoJson info h]
      rfl
  | ProxyStopped id =>
      simp +decide only [messageJson, messageFromJson, ite_true, ite_false]
      rw [proxyIdFromJson_proxyIdJson id h]
      rfl
  | LogEntry e =>
      obtain ⟨hid, hts, hpid, hmeta⟩ := h
      simp +decide only [messageJson, messageFromJson, ite_true, ite_false]
      rw [logEntryFromJson_logEntryJson e hid hts hpid hmeta]
      rfl
  | StatsUpdate s =>
      simp +decide only [messageJson, messageFromJson, ite_true, ite_false]
      rw [statsFromJson_statsJson s h]
      rfl
  | GetStatus id =>
      simp +decide only [messageJson, messageFromJson, ite_true, ite_false]
      rw [proxyIdFromJson_proxyIdJson id h]
      rfl
  | GetLogs pid lim =>
      simp +decide only [messageJson, messageFromJson, ite_true, ite_false,
        and_self, and_true, true_and]
      rw [proxyIdFromJson_proxyIdJson pid h, optFromJson_limit]
  | Shutdown id =>
      simp +decide only [messageJson, messageFromJson, ite_true, ite_false]
      rw [proxyIdFromJson_proxyIdJson id h]
      rfl
  | Ping => decide
  | Pong => decide
  | Error msg pid =>
      simp +decide only [messageJson, messageFromJson, ite_true, ite_false,
        and_self, and_true, true_and]
      rw [stringFromJson_data, optFromJson_pid pid h]

/-- Envelope binding: decoding the encoded envelope restores it, for
well-formed envelopes. -/
theorem envelopeFromJson_envelopeJson (env : IpcEnvelope) (h : env.wf) :
    envelopeFromJson (envelopeJson env) = some env := by
  obtain ⟨hm, hts, hcid⟩ := h
  simp only [envelopeJson, envelopeFromJson]
  rw [if_pos (by simp)]
  rw [messageFromJson_messageJson env.message hm,
    timestampFromJson_timestampJson env.timestamp hts,
    optFromJson_corr env.correlation_id hcid]

/-! ## C5: the rendered document contains no newline -/

/-- Digit characters are never the newline. -/
theorem digitChar_ne_nl (d : Nat) (hd : d < 16) : digitChar d ≠ '\n' := by
  revert d
  decide

/-- A digit (in the `isDigit` sense) is never the newline. -/
theorem digit_ne_nl (c : Char) (h : c.isDigit = true) : ¬ c = '\n' := by
  intro hc
  subst hc
  exact absurd h (by decide)

/-- In-range fixed-width hexadecimal renderings contain no newline. -/
theorem padHex_no_nl : ∀ (w n : Nat), n < 16 ^ w → '\n' ∉ padHex w n := by
  intro w
  induction w with
  | zero => intro n h; simp [padHex, padDigits]
  | succ w ih =>
      intro n h hm
      simp only [padHex, padDigits, List.mem_cons] at hm
      rcases hm with hm | hm
      · exact absurd hm.symm
          (digitChar_ne_nl _ (Nat.div_lt_of_lt_mul (by rw [← Nat.pow_succ]; exact h)))
      · exact ih (n % 16 ^ w) (Nat.mod_lt _ (Nat.pos_pow_of_pos w (by omega))) hm

/-- The escape of a single character contains no newline. -/
theorem escapeChar_no_nl (c : Char) : '\n' ∉ escapeChar c := by
  unfold escapeChar
  split_ifs with h1 h2 h3 h4 h5 h6 h7 h8
  · decide
  · decide
  · decide
  · decide
  · decide
  · decide
  · decide
  · intro hm
    simp only [List.mem_cons] at hm
    rcases hm with h | h | h | h | h
    · exact absurd h (by decide)
    · exact absurd h (by decide)
    · exact absurd h (by decide)
    · exact absurd h (by decide)
    · exact absurd h (padHex_no_nl 2 c.toNat
        (by rw [show (16 : Nat) ^ 2 = 256 from by norm_num]; omega))
  · intro hm
    simp only [List.mem_singleton] at hm
    apply h5
    rw [← hm]
    decide

/-- Escaped string bodies contain no newline. -/
theorem escapeList_no_nl (s : List Char) : '\n' ∉ escapeList s := by
  induction s with
  | nil => simp [escapeList]
  | cons c t ih =>
      intro hm
      simp only [escapeList, List.mem_append] at hm
      rcases hm with h | h
      · exact escapeChar_no_nl c h
      · exact ih h

/-- Rendered integers contain no newline. -/
theorem renderInt_no_nl (n : Int) : '\n' ∉ renderInt n := by
  unfold renderInt
  split_ifs
  · intro hm
    rcases List.mem_cons.mp hm with h | h
    · exact absurd h (by decide)
    · exact absurd (natDigits_all_digit _ _ h) (by decide)
  · intro hm
    exact absurd (natDigits_all_digit _ _ hm) (by decide)

/-- Compactly rendered JSON documents contain no newline. -/
theorem renderJson_no_nl : ∀ fuel : Nat,
    (∀ v : Json, jsonSize v ≤ fuel → '\n' ∉ renderJson v)
    ∧ (∀ xs : List Json, xs ≠ [] → sizeElems xs ≤ fuel → '\n' ∉ renderElems xs)
    ∧ (∀ ms : List (List Char × Json), ms ≠ [] → sizeMembers ms ≤ fuel →
        '\n' ∉ renderMembers ms) := by
  intro fuel
  induction fuel with
  | zero =>
      refine ⟨?_, ?_, ?_⟩
      · intro v hs
        have := jsonSize_pos v
        omega
      · intro xs hne hs
        have := sizeElems_pos xs hne
        omega
      · intro ms hne hs
        have := sizeMembers_pos ms hne
        omega
  | succ f ih =>
      obtain ⟨ihP, ihQ, ihR⟩ := ih
      refine ⟨?_, ?_, ?_⟩
      · intro v hs
        cases v with
        | null => decide
        | bool b => cases b <;> decide
        | num n => exact renderInt_no_nl n
        | str s =>
            intro hm
            rw [show renderJson (.str s) = '"' :: escapeList s ++ ['"'] from rfl] at hm
            rcases List.mem_cons.mp hm with h | h
            · exact absurd h (by decide)
            · rcases List.mem_append.mp h with h | h
              · exact escapeList_no_nl s h
              · exact absurd (List.mem_singleton.mp h) (by decide)
        | arr xs =>
            cases xs with
            | nil => decide
            | cons x xs' =>
                intro hm
                rw [show renderJson (.arr (x :: xs'))
                    = '[' :: renderElems (x :: xs') ++ [']'] from rfl] at hm
                have h1 : jsonSize (.arr (x :: xs')) = 1 + sizeElems (x :: xs') := rfl
                rcases List.mem_cons.mp hm with h | h
                · exact absurd h (by decide)
                · rcases List.mem_append.mp h with h | h
                  · exact ihQ (x :: xs') (by simp) (by rw [h1] at hs; omega) h
                  · exact absurd (List.mem_singleton.mp h) (by decide)
        | obj ms =>
            cases ms with
            | nil => decide
            | cons m ms' =>
                intro hm
                rw [show renderJson (.obj (m :: ms'))
                    = '{' :: renderMembers (m :: ms') ++ ['}'] from rfl] at hm
                have h1 : jsonSize (.obj (m :: ms')) = 1 + sizeMembers (m :: ms') := rfl
                rcases List.mem_cons.mp hm with h | h
                · exact absurd h (by decide)
                · rcases List.mem_append.mp h with h | h
                  · exact ihR (m :: ms') (by simp) (by rw [h1] at hs; omega) h
                  · exact absurd (List.mem_singleton.mp h) (by decide)
      · intro xs hne hs
        cases xs with
        | nil => exact absurd rfl hne
        | cons x xs' =>
            have hsx : sizeElems (x :: xs') = 1 + jsonSize x + sizeElems xs' := rfl
            cases xs' with
            | nil => exact ihP x (by rw [hsx] at hs; have : sizeElems ([] : List Json) = 0 := rfl; omega)
            | cons y ys =>
                have hsx2 : sizeElems (x :: y :: ys)
                    = 1 + jsonSize x + sizeElems (y :: ys) := rfl
                intro hm
                rw [show renderElems (x :: y :: ys)
                    = renderJson x ++ ',' :: renderElems (y :: ys) from rfl] at hm
                rcases List.mem_append.mp hm with h | h
                · exact ihP x (by rw [hsx2] at hs; omega) h
                · rcases List.mem_cons.mp h with h | h
                  · exact absurd h (by decide)
                  · exact ihQ (y :: ys) (by simp)
                      (by rw [hsx2] at hs; have := jsonSize_pos x; omega) h
      · intro ms hne hs
        cases ms with
        | nil => exact absurd rfl hne
        | cons m ms' =>
            obtain ⟨k, v0⟩ := m
            have hsm : sizeMembers ((k, v0) :: ms')
                = 1 + jsonSize v0 + sizeMembers ms' := rfl
            cases ms' with
            | nil =>
                intro hm
                rw [show renderMembers [(k, v0)]
                    = '"' :: escapeList k ++ '"' :: ':' :: renderJson v0 from rfl] at hm
                rcases List.mem_cons.mp hm with h | h
                · exact absurd h (by decide)
                · rcases List.mem_append.mp h with h | h
                  · exact escapeList_no_nl k h
                  · rcases List.mem_cons.mp h with h | h
                    · exact absurd h (by decide)
                    · rcases List.mem_cons.mp h with h | h
                      · exact absurd h (by decide)
                      · exact ihP v0 (by
                          rw [hsm] at hs
                          have : sizeMembers ([] : List (List Char × Json)) = 0 := rfl
                          omega) h
            | cons m2 ms2 =>
                intro hm
                rw [show renderMembers ((k, v0) :: m2 :: ms2)
                    = '"' :: escapeList k ++ '"' :: ':' :: renderJson v0
                      ++ ',' :: renderMembers (m2 :: ms2) from rfl] at hm
                have hsm2 : sizeMembers ((k, v0) :: m2 :: ms2)
                    = 1 + jsonSize v0 + sizeMembers (m2 :: ms2) := rfl
                rcases List.mem_cons.mp hm with h | h
                · exact absurd h (by decide)
                · rcases List.mem_append.mp h with h | h
                  · rcases List.mem_append.mp h with h | h
                    · exact escapeList_no_nl k h
                    · rcases List.mem_cons.mp h with h | h
                      · exact absurd h (by decide)
                      · rcases List.mem_cons.mp h with h | h
                        · exact absurd h (by decide)
                        · exact ihP v0 (by rw [hsm2] at hs; omega) h
                  · rcases List.mem_cons.mp h with h | h
                    · exact absurd h (by decide)
                    · exact ihR (m2 :: ms2) (by simp)
                        (by rw [hsm2] at hs; have := jsonSize_pos v0; omega) h

/-! ## C5: the wire glue -/

/-- `readLineModel` on a single-step match, spelled out (definitional). -/
theorem readLineModel_cons (c : Char) (X : List Char) :
    readLineModel (c :: X)
      = if c = '\n' then ([c], X)
        else (c :: (readLineModel X).1, (readLineModel X).2) := rfl

/-- `read_line` consumes exactly one newline-terminated line whose body is
newline-free, and leaves nothing. -/
theorem readLineModel_line (r : List Char) (h : '\n' ∉ r) :
    readLineModel (r ++ ['\n']) = (r ++ ['\n'], []) := by
  induction r with
  | nil =>
      rw [List.nil_append, readLineModel_cons, if_pos rfl]
  | cons c t ih =>
      have hc : ¬ c = '\n' := by
        intro hc
        exact h (by rw [hc]; exact List.mem_cons_self _ _)
      have ht : '\n' ∉ t := fun hm => h (List.mem_cons_of_mem _ hm)
      rw [List.cons_append, readLineModel_cons, if_neg hc, ih ht]

/-- `str::trim` strips exactly the trailing newline from a braced document. -/
theorem trimChars_wrap (L : List Char) :
    trimChars (('{' :: L ++ ['}']) ++ ['\n']) = '{' :: L ++ ['}'] := by
  unfold trimChars
  simp +decide [List.dropWhile_cons]

/-- The rendered envelope document is a braced object, so trimming the
received line recovers it exactly. -/
theorem trimChars_render_env (env : IpcEnvelope) :
    trimChars (renderJson (envelopeJson env) ++ ['\n'])
      = renderJson (envelopeJson env) :=
  trimChars_wrap (renderMembers
    [("message".data, messageJson env.message),
     ("timestamp".data, timestampJson env.timestamp),
     ("correlation_id".data, optJson uuidJson env.correlation_id)])

/-- One `receive_message` on the bytes `send_message` wrote yields exactly
the decoded envelope and consumes the whole stream. -/
theorem receiveMessage_roundtrip (env env' : IpcEnvelope)
    (hbind : envelopeFromJson (envelopeJson env) = some env') :
    receiveMessage (sendMessageWire env) = (.envelope env', []) := by
  have hnl : '\n' ∉ renderJson (envelopeJson env) :=
    (renderJson_no_nl (jsonSize (envelopeJson env))).1 _ le_rfl
  have hfromstr : envelopeFromStr (renderJson (envelopeJson env)) = some env' := by
    unfold envelopeFromStr
    rw [parseValue_renderJson (envelopeJson env)]
    exact hbind
  unfold receiveMessage
  rw [show sendMessageWire env = renderJson (envelopeJson env) ++ ['\n'] from rfl]
  rw [readLineModel_line _ hnl]
  dsimp only
  rw [if_neg (by simp)]
  rw [trimChars_render_env, hfromstr]

/-- C5: for every well-formed IPC envelope — in particular for messages
containing double quotes, backslashes, tabs, newlines and characters
outside the BMP, arbitrary payload sizes, and sub-second timestamp
precision — `receive_message` on the newline-terminated JSON line that
`send_message` writes returns exactly the envelope sent, consuming the
whole stream.  (Corrected from the claim's unconditional phrasing: a log
entry whose optional `metadata` is `Some(Value::Null)` serializes to
`null` and decodes to `None`, so that envelope does not round-trip; see
the counterexample.) -/
theorem c5_wire_round_trip (env : IpcEnvelope) (h : env.wf) :
    receiveMessage (sendMessageWire env) = (.envelope env, []) :=
  receiveMessage_roundtrip env env (envelopeFromJson_envelopeJson env h)

/-- C5 witness: the stress envelope (quote, backslash, tab, newline, a
non-BMP scalar, metadata object, 9- and 1-digit fractional seconds)
satisfies the hypothesis and round-trips. -/
theorem c5_wire_round_trip_witness :
    stressEnvelope.wf
      ∧ receiveMessage (sendMessageWire stressEnvelope)
          = (.envelope stressEnvelope, []) :=
  ⟨by decide, c5_wire_round_trip stressEnvelope (by decide)⟩

/-- C5 counterexample to the unconditional claim: the envelope whose log
entry carries `metadata = Some(Value::Null)` decodes to a different
envelope (its metadata collapses to `None`). -/
theorem c5_null_metadata_counterexample :
    receiveMessage (sendMessageWire nullMetaEnvelope)
        = (.envelope collapsedEnvelope, [])
      ∧ collapsedEnvelope ≠ nullMetaEnvelope :=
  ⟨receiveMessage_roundtrip nullMetaEnvelope collapsedEnvelope (by decide), by decide⟩
